import Mathlib

/-!
# Muuri storyview: the reconciliation engine of `storyviews/muuri.js`

A shallow embedding of the adapter in `muuri.js`.  The adapter is a JavaScript object with
mutable fields that talks to three collaborators: the host framework (the list widget and
`$tw`), the DOM, and the grid engine.  Here

* the adapter's fields are the record `Adapter`; the process-wide registry `$tw.muuriGrid`,
  the identity counter for freshly allocated engine objects and the list of calls made into
  the engine sit next to it in `Sys`;
* everything the adapter reads from a collaborator is a field of `World`: one `World` is what
  the collaborators answer during one call into the adapter;
* a method that mutates `this` is a function from `Sys` (or `Adapter`) to the new one, and
  a method that mutates its `state` argument also returns the new snapshot.
-/

namespace MuuriStoryView

/-! ## Strings -/

/-- White space as `String.prototype.trim` understands it (WhiteSpace and LineTerminator). -/
def isJsWhitespace (c : Char) : Bool :=
  let n := c.toNat
  (9 ≤ n && n ≤ 13) || n == 32 || n == 160 || n == 5760 || (8192 ≤ n && n ≤ 8202) ||
    n == 8232 || n == 8233 || n == 8239 || n == 8287 || n == 12288 || n == 65279

/-- The method `String.prototype.trim`. -/
def jsTrim (s : String) : String :=
  String.mk ((s.data.dropWhile isJsWhitespace).reverse.dropWhile isJsWhitespace).reverse

/-- The test `name.indexOf(p) === 0`. -/
def startsWith (p s : String) : Bool := p.data.isPrefixOf s.data

/-- The call `name.slice(p.length)`. -/
def sliceFrom (p s : String) : String := String.mk (s.data.drop p.data.length)

/-- Lower-casing, as far as the comparisons of this file against ASCII words can see. -/
def toLowerCase (s : String) : String := String.mk (s.data.map Char.toLower)

/-- JavaScript `a || b` on strings: the empty string is falsy. -/
def strOr (a b : String) : String := if a = "" then b else a

/-- JavaScript `a || b` where `a` may be `null` (here `none`) or a string. -/
def truthyStr : Option String → Option String
  | some t => if t = "" then none else some t
  | none => none

/-! ## Option values -/

/-- A DOM element, by identity. -/
abbrev Elem := Nat

/-- The value of an engine option.  Arrays and objects are never looked into by the adapter
(except the bulk object, see `World.objectEntries`), so they are carried as the JSON text
`JSON.stringify` prints for them; a number is carried as its printed numeral. -/
inductive Val where
  | undefined
  | null
  | bool (b : Bool)
  | num (text : String)
  | str (s : String)
  | array (json : String)
  | object (json : String)
  | fn (moduleTitle : String)
  | connectedDragSort
  | element (e : Elem)
  deriving DecidableEq

/-- JavaScript truthiness, `!!v`. -/
def Val.truthy : Val → Bool
  | Val.undefined => false
  | Val.null => false
  | Val.bool b => b
  | Val.num t => !(t == "0" || t == "NaN")
  | Val.str s => !(s == "")
  | _ => true

/-- The test `v !== undefined && v !== null`. -/
def Val.isSet : Val → Bool
  | Val.undefined => false
  | Val.null => false
  | _ => true

/-- An options object: own enumerable keys in insertion order.  (JavaScript lists
integer-like keys first and never stores the key `__proto__` as an own member; no statement
of this file depends on the order of the keys or concerns that key.) -/
abbrev Options := List (String × Val)

/-- The read `opts[k]`: `undefined` for a key that is not there. -/
def optGet : Options → String → Val
  | [], _ => Val.undefined
  | (k, v) :: rest, key => if k = key then v else optGet rest key

/-- The write `opts[k] = v`: in place for a key that is there, appended otherwise. -/
def optSet : Options → String → Val → Options
  | [], key, v => [(key, v)]
  | (k, x) :: rest, key, v => if k = key then (k, v) :: rest else (k, x) :: optSet rest key v

/-! ## `stableSig` -/

/-- A hexadecimal digit, lower case. -/
def hexDigit (n : Nat) : Char := if n < 10 then Char.ofNat (48 + n) else Char.ofNat (87 + n)

/-- How `JSON.stringify` writes one character of a string (34 is the double quote, 92 the
backslash). -/
def escapeChar (c : Char) : List Char :=
  let n := c.toNat
  if n = 34 then [Char.ofNat 92, Char.ofNat 34]
  else if n = 92 then [Char.ofNat 92, Char.ofNat 92]
  else if n = 8 then [Char.ofNat 92, 'b']
  else if n = 12 then [Char.ofNat 92, 'f']
  else if n = 10 then [Char.ofNat 92, 'n']
  else if n = 13 then [Char.ofNat 92, 'r']
  else if n = 9 then [Char.ofNat 92, 't']
  else if n < 32 then [Char.ofNat 92, 'u', '0', '0', hexDigit (n / 16), hexDigit (n % 16)]
  else [c]

/-- The text `JSON.stringify` prints for a string. -/
def jsonQuote (s : String) : String :=
  String.mk (Char.ofNat 34 :: (s.data.flatMap escapeChar ++ [Char.ofNat 34]))

/-- The function `stableSig` on an option value: `JSON.stringify(v)`, which is `undefined`
(here `none`) for `undefined` and for a function.  An element has no own enumerable
property, so it prints as the empty object. -/
def stableSig : Val → Option String
  | Val.undefined => none
  | Val.null => some "null"
  | Val.bool b => some (if b then "true" else "false")
  | Val.num t => some (if t = "NaN" ∨ t = "Infinity" ∨ t = "-Infinity" then "null" else t)
  | Val.str s => some (jsonQuote s)
  | Val.array j => some j
  | Val.object j => some j
  | Val.fn _ => none
  | Val.connectedDragSort => none
  | Val.element _ => some "\x7b\x7d"

/-- The members `JSON.stringify` prints for an options object: a member whose value prints
as `undefined` is left out. -/
def optionMembers : Options → List String
  | [] => []
  | (k, v) :: rest =>
    match stableSig v with
    | some t => (jsonQuote k ++ ":" ++ t) :: optionMembers rest
    | none => optionMembers rest

/-- The text `JSON.stringify` prints for an options object. -/
def stringifyOptions (o : Options) : String :=
  "\x7b" ++ ",".intercalate (optionMembers o) ++ "\x7d"

/-- The signature of a snapshot.  In the source it is the JSON text of an object literal with
nine scalar members and the options object; such a text is determined by, and determines,
the ten member texts, which is how it is kept here. -/
structure Sig where
  moduleTitle : String
  itemsSelector : String
  containerClass : String
  containerStyle : String
  connectSelector : String
  globalDragContainerSelector : String
  filteringEnabled : Bool
  twFilterExpression : String
  twFilterSource : String
  options : String
  deriving DecidableEq

/-- The configuration snapshot built by `_readStateFromAttributes`. -/
structure Snapshot where
  moduleTitle : String
  itemsSelector : String
  containerClass : String
  containerStyle : String
  connectSelector : String
  globalDragContainerSelector : String
  filteringEnabled : Bool
  twFilterExpression : String
  twFilterSource : String
  options : Options
  sig : Sig
  deriving DecidableEq

/-! ## Collaborators -/

/-- An engine constructor, by identity. -/
abbrev Ctor := Nat

/-- What one item of the engine answers when `_applyLive` toggles its drag capability:
`drag` is `it._drag || (it.getDrag && it.getDrag())` (`none` when that throws, `some true`
when it is truthy). -/
structure ItemBeh where
  drag : Option Bool
  hasEnable : Bool
  enableThrows : Bool
  hasDisable : Bool
  disableThrows : Bool
  deriving DecidableEq

/-- How one engine instance behaves when the adapter calls into it, as far as the adapter
can tell: which members it has and which calls throw.  The calls `destroy` and `filter` are
only ever made under a `safe` of their own, so whether they throw changes nothing. -/
structure EngineBeh where
  hasRefreshItems : Bool
  refreshItemsThrows : Bool
  hasLayout : Bool
  layoutThrows : Bool
  hasFilter : Bool
  hasSettings : Bool
  getItems : Option (List ItemBeh)
  deriving DecidableEq

/-- What the collaborators answer during one call into the adapter. -/
structure World where
  /-- The widget's `parentDomNode`, when it is an `Element`. -/
  parentDomNode : Option Elem
  /-- The widget's `findFirstDomNode()`, when it is an `Element`. -/
  findFirstDomNode : Option Elem
  /-- The widget's `getAttribute(name)`; `none` for `undefined` or `null`. -/
  widgetAttribute : String → Option String
  /-- The widget's `getTiddlerList()` under `safe`, when it is an array. -/
  getTiddlerList : Option (List String)
  /-- The call `$tw.wiki.filterTiddlers(expr, widget)` under `safe`, when it is an array. -/
  filterTiddlers : String → Option (List String)
  /-- The call `$tw.utils.getAnimationDuration()`. -/
  getAnimationDuration : Val
  /-- The property `el.isConnected`. -/
  isConnected : Elem → Bool
  /-- The attributes of an element, `el.attributes`, as name and value. -/
  attributes : Elem → List (String × String)
  /-- The chain `el.parentElement`, `el.parentElement.parentElement`, ... up to the root. -/
  ancestors : Elem → List Elem
  /-- The call `host.querySelectorAll(sel)` in document order; `none` when it throws. -/
  querySelectorAll : Elem → String → Option (List Elem)
  /-- The call `host.matches(selector)`, for a selector the DOM accepts. -/
  hostMatches : Elem → String → Bool
  /-- Whether `host.closest(selector)` finds an element, for a selector the DOM accepts. -/
  closest : Elem → String → Bool
  /-- The read `element.dataset[key]`. -/
  dataset : Elem → String → Option String
  /-- The call `document.querySelector(sel)` under `safe`; `none` for no element. -/
  documentQuerySelector : String → Option Elem
  /-- The element `document.body`. -/
  body : Elem
  /-- Whether `MutationObserver` is defined. -/
  hasMutationObserver : Bool
  /-- The function `getMuuriCtor`: what `require(moduleTitle)` gives, `none` when it throws
  or gives nothing truthy. -/
  getMuuriCtor : String → Option Ctor
  /-- Whether `new ctor(container, opts)` returns (`true`) or throws (`false`). -/
  constructs : Ctor → Elem → Options → List Elem → Bool
  /-- Whether `readFnModule(title)` finds a callable. -/
  fnModule : String → Bool
  /-- The call `JSON.parse(text)`; `none` when it throws. -/
  jsonParse : String → Option Val
  /-- The own enumerable members of the object whose JSON text is given. -/
  objectEntries : String → List (String × Val)
  /-- The numeral printed for `Number(s)`, `none` when `isFinite` rejects the number. -/
  numberText : String → Option String
  /-- The behaviour of the engine object with the given identity. -/
  engine : Nat → EngineBeh

/-- The call `el.getAttribute(name)`. -/
def getAttribute (w : World) (el : Elem) (name : String) : Option String :=
  ((w.attributes el).find? (fun p => p.1 == name)).map Prod.snd

/-! ## Adapter state -/

/-- An engine instance: its identity and the tags `_ensureMuuri` puts on it. -/
structure Grid where
  id : Nat
  twListNode : Option Elem
  twHost : Option Elem
  twContainer : Option Elem
  deriving DecidableEq

/-- The predicate handed to `grid.filter`. -/
inductive FilterPred where
  | acceptAll
  | byTitle (allowed : List String) (state : Snapshot)
  deriving DecidableEq

/-- A call made into the engine.  The call `applyLive` is not an engine call: it records that
`_applyLive` ran. -/
inductive Event where
  | construct (ctor : Ctor) (container : Elem) (opts : Options) (items : List Elem)
  | destroy (grid : Nat)
  | refreshItems (grid : Nat) (items : List Elem)
  | layout (grid : Nat)
  | filter (grid : Nat) (p : FilterPred)
  | setSetting (grid : Nat) (key : String) (v : Val)
  | getItems (grid : Nat)
  | dragEnable (grid : Nat) (item : Nat)
  | dragDisable (grid : Nat) (item : Nat)
  | applyLive (grid : Nat)
  deriving DecidableEq

/-- The fields of a `MuuriStoryView` object.  The field `_connectSelector` starts as `null`,
which every read of it treats like the empty string; the set `_twAllowedTitles` is kept as
the list of its members. -/
structure Adapter where
  muuri : Option Grid
  muuriCtor : Option Ctor
  listNode : Option Elem
  container : Option Elem
  attrObserver : Option Elem
  syncInProgress : Bool
  connectSelector : String
  connectProvidesDragSort : Bool
  globalDragContainerSelector : String
  connectProvidesDragContainer : Bool
  filteringEnabled : Bool
  twFilterExpression : String
  twFilterSource : String
  twAllowedTitles : Option (List String)
  lastState : Option Snapshot
  deriving DecidableEq

/-- The adapter together with the process-wide state it shares: the registry `$tw.muuriGrid`,
the identity the next constructed engine object gets, and the calls made so far. -/
structure Sys where
  self : Adapter
  registry : List Grid
  nextId : Nat
  trace : List Event
  deriving DecidableEq

/-- The fields as the constructor sets them, before its first `kick()`. -/
def Adapter.init : Adapter :=
  { muuri := none, muuriCtor := none, listNode := none, container := none,
    attrObserver := none, syncInProgress := false, connectSelector := "",
    connectProvidesDragSort := false,
    globalDragContainerSelector := ".tc-muuri-drag-container",
    connectProvidesDragContainer := false, filteringEnabled := false,
    twFilterExpression := "", twFilterSource := "title", twAllowedTitles := none,
    lastState := none }

/-! ## Registry -/

/-- The function `addToRegistry`. -/
def addToRegistry (grid : Grid) (reg : List Grid) : List Grid :=
  if grid ∈ reg then reg else reg ++ [grid]

/-- The function `removeFromRegistry`: the first occurrence is spliced out. -/
def removeFromRegistry (grid : Grid) (reg : List Grid) : List Grid :=
  reg.erase grid

/-! ## DOM resolution -/

/-- The method `_getListDomNode`, which caches the node while it stays connected. -/
def _getListDomNode (w : World) (a : Adapter) : Adapter × Option Elem :=
  match a.listNode with
  | some n =>
    if w.isConnected n then (a, some n)
    else ({ a with listNode := w.findFirstDomNode }, w.findFirstDomNode)
  | none => ({ a with listNode := w.findFirstDomNode }, w.findFirstDomNode)

/-- The method `_getHostDomNode`. -/
def _getHostDomNode (w : World) : Option Elem := w.parentDomNode

/-- The method `_getAttr`. -/
def _getAttr (w : World) (node : Option Elem) (name : String) : Option String :=
  match w.widgetAttribute name with
  | some v => some v
  | none =>
    match node with
    | some n => getAttribute w n name
    | none => none

/-- The method `_ensureContainer`, as far as the adapter's own fields go: the marker
attribute, the enforced style properties and the extra classes are written to the host
element, which the adapter does not own. -/
def _ensureContainer (w : World) (a : Adapter) (_state : Snapshot) : Adapter × Option Elem :=
  match _getHostDomNode w with
  | none => (a, none)
  | some host => ({ a with container := some host }, some host)

/-- The method `_getListTitlesSet`. -/
def _getListTitlesSet (w : World) : Option (List String) := w.getTiddlerList

/-- The identifier of an item element:
`el.getAttribute("data-tiddler-title") || el.getAttribute("data-tiddler") || null`. -/
def itemTitle (w : World) (el : Elem) : Option String :=
  match truthyStr (getAttribute w el "data-tiddler-title") with
  | some t => some t
  | none => truthyStr (getAttribute w el "data-tiddler")

/-- The loop of `_getItemElements` over the selector matches, pushing onto `out`. -/
def collectItems (w : World) (allowed : List String) : List Elem → List Elem → List Elem
  | [], out => out
  | el :: rest, out =>
    match itemTitle w el with
    | some t =>
      if t ∈ allowed then collectItems w allowed rest (out ++ [el])
      else collectItems w allowed rest out
    | none => collectItems w allowed rest out

/-- The selector `_getItemElements` queries with. -/
def itemsSelectorOf (state : Snapshot) : String :=
  strOr (jsTrim (strOr state.itemsSelector ".tc-tiddler-frame")) ".tc-tiddler-frame"

/-- The method `_getItemElements`. -/
def _getItemElements (w : World) (state : Snapshot) : List Elem :=
  match _getHostDomNode w with
  | none => []
  | some host =>
    match w.querySelectorAll host (itemsSelectorOf state) with
    | none => []
    | some nodes =>
      if nodes.length = 0 then []
      else
        match _getListTitlesSet w with
        | none => nodes
        | some allowed => collectItems w allowed nodes []

/-! ## Reading the configuration -/

/-- The function `parseJSON`. -/
def parseJSON (w : World) (text : String) : Val :=
  if text = "" then Val.null
  else
    match w.jsonParse text with
    | some v => v
    | none => Val.null

/-- A decimal digit, the class `\d`. -/
def isDigit (c : Char) : Bool := 48 ≤ c.toNat && c.toNat ≤ 57

/-- The test of `toPrimitive` against `^[+-]?\d+(\.\d+)?$`. -/
def isNumeral (s : String) : Bool :=
  let unsigned : List Char :=
    match s.data with
    | c :: rest => if c = '+' ∨ c = '-' then rest else c :: rest
    | [] => []
  let intPart := unsigned.takeWhile isDigit
  match unsigned.dropWhile isDigit with
  | [] => !intPart.isEmpty
  | c :: frac => !intPart.isEmpty && c == '.' && !frac.isEmpty && frac.all isDigit

/-- The function `toPrimitive` on an attribute value. -/
def toPrimitive (w : World) (text : String) : Val :=
  let s := jsTrim text
  if s = "" then Val.undefined
  else
    let l := toLowerCase s
    if l = "true" ∨ l = "yes" ∨ l = "1" then Val.bool true
    else if l = "false" ∨ l = "no" ∨ l = "0" then Val.bool false
    else if isNumeral s then
      match w.numberText s with
      | some t => Val.num t
      | none => Val.str s
    else Val.str s

/-- The function `toBool` on what `a || b` over two attribute reads gives. -/
def toBool (val : Option String) : Bool :=
  match val with
  | none => false
  | some v =>
    let s := toLowerCase (jsTrim v)
    s = "true" ∨ s = "yes" ∨ s = "1" ∨ s = "on"

/-- The function `readFnModule`. -/
def readFnModule (w : World) (title : String) : Option Val :=
  if w.fnModule title then some (Val.fn title) else none

/-- The read `this._getAttr(listNode, name) || this._getAttr(hostNode, name)`, `none` when
the result is falsy. -/
def readAttr (w : World) (listNode hostNode : Option Elem) (name : String) : Option String :=
  match truthyStr (_getAttr w listNode name) with
  | some v => some v
  | none => truthyStr (_getAttr w hostNode name)

/-- The loop `for (var k0 in obj) state.options[k0] = obj[k0]`. -/
def seedOptions : List (String × Val) → Options → Options
  | [], o => o
  | (k, v) :: rest, o => seedOptions rest (optSet o k v)

/-- The loop over the visible attributes for the names `muuri-opt-*`. -/
def readOptAttrs (w : World) : List (String × String) → Options → Options
  | [], o => o
  | (name, val) :: rest, o =>
    if startsWith "muuri-opt-" name then
      let optName := sliceFrom "muuri-opt-" name
      if optName = "" then readOptAttrs w rest o
      else
        let jsonVal := parseJSON w val
        readOptAttrs w rest
          (optSet o optName (if jsonVal ≠ Val.null then jsonVal else toPrimitive w val))
    else readOptAttrs w rest o

/-- The loop over the visible attributes for the names `muuri-fn-*`. -/
def readFnAttrs (w : World) : List (String × String) → Options → Options
  | [], o => o
  | (name, val) :: rest, o =>
    if startsWith "muuri-fn-" name then
      let optName := sliceFrom "muuri-fn-" name
      if optName = "" then readFnAttrs w rest o
      else
        match readFnModule w val with
        | some fn => readFnAttrs w rest (optSet o optName fn)
        | none => readFnAttrs w rest o
    else readFnAttrs w rest o

/-- The signature of a snapshot whose `sig` member has not been assigned yet. -/
def Sig.unset : Sig :=
  { moduleTitle := "", itemsSelector := "", containerClass := "", containerStyle := "",
    connectSelector := "", globalDragContainerSelector := "", filteringEnabled := false,
    twFilterExpression := "", twFilterSource := "", options := "" }

/-- The argument of `stableSig` at the end of `_readStateFromAttributes`, printed. -/
def stableSigState (st : Snapshot) : Sig :=
  { moduleTitle := st.moduleTitle, itemsSelector := st.itemsSelector,
    containerClass := st.containerClass, containerStyle := st.containerStyle,
    connectSelector := st.connectSelector,
    globalDragContainerSelector := st.globalDragContainerSelector,
    filteringEnabled := st.filteringEnabled, twFilterExpression := st.twFilterExpression,
    twFilterSource := st.twFilterSource, options := stringifyOptions st.options }

/-- The body of `_readStateFromAttributes` after its first statement, which resolves the list
node: the adapter's fields are not read or written any more. -/
def readSnapshot (w : World) (listNode : Option Elem) : Snapshot :=
  let hostNode := _getHostDomNode w
  let attrs : Option (List (String × String)) :=
    match listNode with
    | some n => some (w.attributes n)
    | none =>
      match hostNode with
      | some h => some (w.attributes h)
      | none => none
  let rd := readAttr w listNode hostNode
  let options0 : Options :=
    match rd "muuri-opt-json" with
    | some bulk =>
      match parseJSON w bulk with
      | Val.object j => seedOptions (w.objectEntries j) []
      | _ => []
    | none => []
  let options1 : Options :=
    match attrs with
    | some l => readFnAttrs w l (readOptAttrs w l options0)
    | none => options0
  let options2 : Options :=
    if !(optGet options1 "layoutDuration").isSet then
      optSet options1 "layoutDuration" w.getAnimationDuration
    else options1
  let fields : Snapshot :=
    { moduleTitle := (rd "muuri-module-title").getD "$:/plugins/BTC/muuri-storyview/lib/muuri.js",
      itemsSelector := (rd "muuri-items-selector").getD ".tc-tiddler-frame",
      containerClass := (rd "muuri-container-class").getD "",
      containerStyle := (rd "muuri-container-style").getD "",
      connectSelector := (rd "muuri-connect-selector").getD "",
      globalDragContainerSelector :=
        (rd "muuri-global-drag-container-selector").getD ".tc-muuri-drag-container",
      filteringEnabled := toBool (rd "muuri-enable-filtering"),
      twFilterExpression := (rd "muuri-tw-filter").getD "",
      twFilterSource := (rd "muuri-tw-filter-source").getD "title",
      options := options2,
      sig := Sig.unset }
  { fields with sig := stableSigState fields }

/-- The method `_readStateFromAttributes`. -/
def _readStateFromAttributes (w : World) (a : Adapter) : Adapter × Snapshot :=
  ((_getListDomNode w a).1, readSnapshot w (_getListDomNode w a).2)

/-! ## Attribute watching and destruction -/

/-- The method `_installAttributeWatcher`: the field holds the observed node. -/
def _installAttributeWatcher (w : World) (a : Adapter) : Adapter :=
  if a.attrObserver.isSome || !w.hasMutationObserver then a
  else
    let a1 := (_getListDomNode w a).1
    match (_getListDomNode w a).2 with
    | some node => { a1 with attrObserver := some node }
    | none =>
      match _getHostDomNode w with
      | some node => { a1 with attrObserver := some node }
      | none => a1

/-- The method `_destroyMuuri`; the call `destroy(true)` runs under `safe`. -/
def _destroyMuuri (s : Sys) : Sys :=
  match s.self.muuri with
  | some g =>
    { s with
      registry := removeFromRegistry g s.registry
      trace := s.trace ++ [Event.destroy g.id]
      self := { s.self with muuri := none, muuriCtor := none } }
  | none => { s with self := { s.self with muuriCtor := none } }

/-- The method `destroy`: the observer is disconnected (under `safe`) and forgotten, the
engine instance is destroyed and unregistered, and the last snapshot, the container and the
list node are forgotten. -/
def destroy (s : Sys) : Sys :=
  let s1 := _destroyMuuri { s with self := { s.self with attrObserver := none } }
  { s1 with self := { s1.self with lastState := none, container := none, listNode := none } }

/-! ## Connecting grids -/

/-- The loop of `connectedDragSort` over the registry, pushing onto `result`. -/
def collectConnected (w : World) (selector : String) : List Grid → List Grid → List Grid
  | [], result => result
  | g :: rest, result =>
    match g.twHost with
    | none => collectConnected w selector rest result
    | some host =>
      if w.hostMatches host selector || w.closest host selector then
        collectConnected w selector rest (result ++ [g])
      else collectConnected w selector rest result

/-- The function `connectedDragSort` returned by `_makeConnectedDragSortFn`, called when the
adapter and the registry are as in `s`. -/
def connectedDragSort (w : World) (s : Sys) : List Grid :=
  let selector := s.self.connectSelector
  if selector = "" then
    match s.self.muuri with
    | some g => [g]
    | none => []
  else
    let result := collectConnected w selector s.registry []
    match s.self.muuri with
    | some g => if g ∈ result then result else result ++ [g]
    | none => result

/-- The method `_resolveGlobalDragContainer`. -/
def _resolveGlobalDragContainer (w : World) (a : Adapter) : Elem :=
  match w.documentQuerySelector (strOr a.globalDragContainerSelector ".tc-muuri-drag-container") with
  | some el => el
  | none => w.body

/-- The method `_applyConnectionPolicy`, which writes into the adapter and into `state`. -/
def _applyConnectionPolicy (w : World) (a : Adapter) (state : Snapshot) : Adapter × Snapshot :=
  let a1 : Adapter :=
    { a with
      connectSelector := strOr state.connectSelector ""
      globalDragContainerSelector :=
        strOr state.globalDragContainerSelector ".tc-muuri-drag-container" }
  let userSetDragSort := (optGet state.options "dragSort").isSet
  let sortStep : Adapter × Snapshot :=
    if a1.connectSelector ≠ "" ∧ userSetDragSort = false then
      ({ a1 with connectProvidesDragSort := true },
       { state with options := optSet state.options "dragSort" Val.connectedDragSort })
    else ({ a1 with connectProvidesDragSort := false }, state)
  let a2 := sortStep.1
  let state2 := sortStep.2
  let userSetDragContainer := (optGet state2.options "dragContainer").isSet
  if a2.connectSelector ≠ "" ∧ userSetDragContainer = false then
    ({ a2 with connectProvidesDragContainer := true },
     { state2 with
       options := optSet state2.options "dragContainer"
         (Val.element (_resolveGlobalDragContainer w a2)) })
  else ({ a2 with connectProvidesDragContainer := false }, state2)

/-! ## Filtering -/

/-- The first truthy of `data-tiddler-title`, `data-tiddler`, `title` on one element. -/
def titleMarker (w : World) (el : Elem) : Option String :=
  match truthyStr (getAttribute w el "data-tiddler-title") with
  | some t => some t
  | none =>
    match truthyStr (getAttribute w el "data-tiddler") with
    | some t => some t
    | none => truthyStr (getAttribute w el "title")

/-- The `while` loop of `_extractTitleFromElement`, over the element and then its
`parentElement` chain. -/
def walkForTitle (w : World) (host : Option Elem) : List Elem → Option String
  | [] => none
  | el :: rest =>
    match titleMarker w el with
    | some t => some t
    | none => if host = some el then none else walkForTitle w host rest

/-- The method `_extractTitleFromElement`. -/
def _extractTitleFromElement (w : World) (element : Elem) (state : Snapshot) : Option String :=
  let src := jsTrim (strOr state.twFilterSource "title")
  if startsWith "dataset:" src ∧ jsTrim (sliceFrom "dataset:" src) ≠ "" then
    truthyStr (w.dataset element (jsTrim (sliceFrom "dataset:" src)))
  else if startsWith "field:" src ∧ jsTrim (sliceFrom "field:" src) ≠ "" then
    truthyStr (getAttribute w element (jsTrim (sliceFrom "field:" src)))
  else walkForTitle w (_getHostDomNode w) (element :: w.ancestors element)

/-- What a predicate handed to `grid.filter` answers for an item's element. -/
def FilterPred.eval (w : World) : FilterPred → Elem → Bool
  | FilterPred.acceptAll, _ => true
  | FilterPred.byTitle allowed state, element =>
    match truthyStr (_extractTitleFromElement w element state) with
    | some title => decide (title ∈ allowed)
    | none => false

/-- The method `_recomputeAllowedTitles`. -/
def _recomputeAllowedTitles (w : World) (a : Adapter) (state : Snapshot) : Adapter :=
  let a1 : Adapter :=
    { a with
      filteringEnabled := state.filteringEnabled
      twFilterExpression := strOr state.twFilterExpression ""
      twFilterSource := strOr state.twFilterSource "title" }
  let expr := jsTrim (strOr a1.twFilterExpression "")
  if a1.filteringEnabled = false ∨ expr = "" then { a1 with twAllowedTitles := none }
  else
    match w.filterTiddlers expr with
    | none => { a1 with twAllowedTitles := none }
    | some titles => { a1 with twAllowedTitles := some titles }

/-- The method `_applyFiltering`; both calls of `filter` run under `safe`. -/
def _applyFiltering (w : World) (s : Sys) (state : Snapshot) : Sys :=
  match s.self.muuri with
  | none => s
  | some g =>
    if (w.engine g.id).hasFilter = false then s
    else
      let a1 := _recomputeAllowedTitles w s.self state
      match a1.twAllowedTitles with
      | none =>
        { s with self := a1, trace := s.trace ++ [Event.filter g.id FilterPred.acceptAll] }
      | some allowed =>
        { s with
          self := a1
          trace := s.trace ++ [Event.filter g.id (FilterPred.byTitle allowed state)] }

/-! ## Lifecycle -/

/-- How a method ends: by returning, or with an exception passed on to its caller. -/
inductive Completion where
  | normal
  | threw
  deriving DecidableEq

/-- The call `safe(function () { this._muuri.refreshItems(items, true).layout(); })`: the
calls it makes into the engine.  The method `refreshItems` of the engine returns the grid,
so `layout` is called on the same instance. -/
def refreshItemsLayout (w : World) (g : Grid) (items : List Elem) : List Event :=
  let b := w.engine g.id
  if b.hasRefreshItems = false then []
  else if b.refreshItemsThrows then [Event.refreshItems g.id items]
  else if b.hasLayout = false then [Event.refreshItems g.id items]
  else [Event.refreshItems g.id items, Event.layout g.id]

/-- The engine object `_ensureMuuri` gets from the constructor, with the tags it puts on it.
A constructed object is a new object, so it gets the next unused identity. -/
def newGrid (w : World) (s : Sys) (host container : Elem) : Grid :=
  { id := s.nextId, twListNode := (_getListDomNode w s.self).2, twHost := some host,
    twContainer := some container }

/-- The statements of `_ensureMuuri` from `new this._muuriCtor(container, opts)` on, where
`this._muuriCtor` is `ctor`.  The constructor call is not under `safe`: when it throws, the
method ends there and the exception goes to the caller. -/
def constructMuuri (w : World) (s : Sys) (state : Snapshot) (host container : Elem)
    (ctor : Ctor) : Sys × Completion :=
  let items := _getItemElements w state
  let opts := state.options
  if w.constructs ctor container opts items = false then
    ({ s with trace := s.trace ++ [Event.construct ctor container opts items] },
     Completion.threw)
  else
    let grid := newGrid w s host container
    let s6 : Sys :=
      { self := { (_getListDomNode w s.self).1 with muuri := some grid }
        registry := addToRegistry grid s.registry
        nextId := s.nextId + 1
        trace := s.trace ++ [Event.construct ctor container opts items] ++
          refreshItemsLayout w grid items }
    let s7 := _applyFiltering w s6 state
    ({ s7 with self := _installAttributeWatcher w s7.self }, Completion.normal)

/-- The method `_ensureMuuri`.  It returns the system, its `state` argument as it has left it,
and how it ended. -/
def _ensureMuuri (w : World) (s : Sys) (state : Snapshot) : Sys × Snapshot × Completion :=
  match s.self.muuri with
  | some _ => (s, state, Completion.normal)
  | none =>
    match _getHostDomNode w with
    | none => (s, state, Completion.normal)
    | some host =>
      let a1 := (_ensureContainer w s.self state).1
      match (_ensureContainer w s.self state).2 with
      | none => ({ s with self := a1 }, state, Completion.normal)
      | some container =>
        let a2 := (_applyConnectionPolicy w a1 state).1
        let state2 := (_applyConnectionPolicy w a1 state).2
        let a3 : Adapter := { a2 with muuriCtor := w.getMuuriCtor state2.moduleTitle }
        match a3.muuriCtor with
        | none => ({ s with self := a3 }, state2, Completion.normal)
        | some ctor =>
          let r := constructMuuri w { s with self := a3 } state2 host container ctor
          (r.1, state2, r.2)

/-- The keys of `RECREATE_IF_CHANGED`. -/
def RECREATE_IF_CHANGED : List String :=
  ["itemsSelector", "itemClass", "itemVisibleClass", "itemHiddenClass", "itemPositioningClass",
   "itemDraggingClass", "itemReleasingClass", "itemPlaceholderClass", "dragContainer"]

/-- The names every object literal inherits from `Object.prototype`, each with a truthy
value. -/
def objectPrototypeNames : List String :=
  ["constructor", "hasOwnProperty", "isPrototypeOf", "propertyIsEnumerable", "toLocaleString",
   "toString", "valueOf", "__defineGetter__", "__defineSetter__", "__lookupGetter__",
   "__lookupSetter__", "__proto__"]

/-- Whether the lookup `RECREATE_IF_CHANGED[key]` is truthy: for an own key, and for a name
found on the prototype of the literal. -/
def recreateIfChanged (key : String) : Bool :=
  decide (key ∈ RECREATE_IF_CHANGED) || decide (key ∈ objectPrototypeNames)

/-- The method `_needsRecreate`. -/
def _needsRecreate (prevState nextState : Snapshot) (changedKeys : List String) : Bool :=
  if prevState.moduleTitle ≠ nextState.moduleTitle then true
  else changedKeys.any recreateIfChanged

/-- The loop of `_applyLive` that writes the changed keys into `grid._settings`. -/
def writeChangedKeys (grid : Nat) (a : Adapter) (nextState : Snapshot) :
    List String → List Event
  | [] => []
  | key :: rest =>
    if key = "dragSort" ∧ a.connectProvidesDragSort = true then
      writeChangedKeys grid a nextState rest
    else if key = "dragContainer" ∧ a.connectProvidesDragContainer = true then
      writeChangedKeys grid a nextState rest
    else Event.setSetting grid key (optGet nextState.options key) ::
      writeChangedKeys grid a nextState rest

/-- The loop of `_applyLive` over the engine's items: the calls made, and whether one of them
threw.  The item at position `i` is named `i`. -/
def toggleDrag (grid : Nat) (enable : Bool) : List ItemBeh → Nat → List Event × Bool
  | [], _ => ([], false)
  | it :: rest, i =>
    match it.drag with
    | none => ([], true)
    | some false => toggleDrag grid enable rest (i + 1)
    | some true =>
      if enable then
        if it.hasEnable then
          if it.enableThrows then ([Event.dragEnable grid i], true)
          else
            let r := toggleDrag grid enable rest (i + 1)
            (Event.dragEnable grid i :: r.1, r.2)
        else toggleDrag grid enable rest (i + 1)
      else
        if it.hasDisable then
          if it.disableThrows then ([Event.dragDisable grid i], true)
          else
            let r := toggleDrag grid enable rest (i + 1)
            (Event.dragDisable grid i :: r.1, r.2)
        else toggleDrag grid enable rest (i + 1)

/-- The statements of `_applyLive` from the writes into `grid._settings` to `grid.layout()`:
the calls they make into the engine, and whether they got through (`false` when a call
threw, which ends the body of `_applyLive` there). -/
def livePatchCalls (w : World) (grid : Grid) (a : Adapter) (nextState : Snapshot)
    (changedKeys : List String) : List Event × Bool :=
  let b := w.engine grid.id
  let provided : List Event :=
    (if a.connectProvidesDragSort then
      [Event.setSetting grid.id "dragSort" (optGet nextState.options "dragSort")] else []) ++
    (if a.connectProvidesDragContainer then
      [Event.setSetting grid.id "dragContainer" (optGet nextState.options "dragContainer")]
     else [])
  let writes := provided ++ writeChangedKeys grid.id a nextState changedKeys
  let drag : List Event × Bool :=
    if "dragEnabled" ∈ changedKeys then
      (Event.getItems grid.id ::
        (toggleDrag grid.id (optGet nextState.options "dragEnabled").truthy
          (b.getItems.getD []) 0).1,
       (toggleDrag grid.id (optGet nextState.options "dragEnabled").truthy
          (b.getItems.getD []) 0).2)
    else ([], false)
  if drag.2 then (writes ++ drag.1, false)
  else
    let refresh : List Event :=
      if b.hasRefreshItems then [Event.refreshItems grid.id (_getItemElements w nextState)]
      else []
    if b.hasRefreshItems && b.refreshItemsThrows then (writes ++ drag.1 ++ refresh, false)
    else
      let layout : List Event := if b.hasLayout then [Event.layout grid.id] else []
      (writes ++ drag.1 ++ refresh ++ layout, !(b.hasLayout && b.layoutThrows))

/-- The method `_applyLive`: the system, `nextState` as it has left it, and the boolean it
returns.  Its body runs under `safe`, so a call that throws ends it with `false` and keeps
what was written before. -/
def _applyLive (w : World) (s : Sys) (nextState : Snapshot) (changedKeys : List String) :
    Sys × Snapshot × Bool :=
  match s.self.muuri with
  | none => (s, nextState, false)
  | some grid =>
    let a1 := (_ensureContainer w s.self nextState).1
    let a2 := (_applyConnectionPolicy w a1 nextState).1
    let st := (_applyConnectionPolicy w a1 nextState).2
    let s2 : Sys := { s with self := a2, trace := s.trace ++ [Event.applyLive grid.id] }
    if (w.engine grid.id).hasSettings = false then (s2, st, false)
    else
      let patch := livePatchCalls w grid a2 st changedKeys
      let s6 : Sys := { s2 with trace := s2.trace ++ patch.1 }
      if patch.2 = false then (s6, st, false)
      else (_applyFiltering w s6 st, st, true)

/-- The key set built by `for (k in prevOpts) keySet[k] = true; for (k in nextOpts) ...`. -/
def keySetOf (prevOpts nextOpts : Options) : List String :=
  (prevOpts.map Prod.fst ++ nextOpts.map Prod.fst).foldl
    (fun ks k => if k ∈ ks then ks else ks ++ [k]) []

/-- The list `changedKeys` of `_syncFromAttributes`. -/
def changedKeysOf (prevState nextState : Snapshot) : List String :=
  (keySetOf prevState.options nextState.options).filter
      (fun k => stableSig (optGet prevState.options k) ≠ stableSig (optGet nextState.options k)) ++
    (if prevState.itemsSelector ≠ nextState.itemsSelector then ["itemsSelector"] else [])

/-- The two statements `this._lastState = next; this._ensureMuuri(next);`.  Both names refer
to one object, so what `_ensureMuuri` writes into `next` shows in `_lastState`. -/
def acceptAndEnsure (w : World) (s : Sys) (next : Snapshot) : Sys × Completion :=
  let r := _ensureMuuri w { s with self := { s.self with lastState := some next } } next
  ({ r.1 with self := { r.1.self with lastState := some r.2.1 } }, r.2.2)

/-- The statement
`if (this._muuri && this._muuri.__twHost && hostNow !== this._muuri.__twHost) this._destroyMuuri();`
of `_syncFromAttributes`. -/
def destroyIfHostChanged (hostNow : Elem) (s : Sys) : Sys :=
  match s.self.muuri with
  | some g =>
    match g.twHost with
    | some h => if hostNow ≠ h then _destroyMuuri s else s
    | none => s
  | none => s

/-- The statements of `_syncFromAttributes` after the test `if (!this._lastState)`, where
`this._lastState` is `lastState`. -/
def reconcile (w : World) (s : Sys) (lastState next : Snapshot) : Sys × Completion :=
  if lastState.sig = next.sig then
    match s.self.muuri with
    | some g =>
      (_applyFiltering w
        { s with trace := s.trace ++ refreshItemsLayout w g (_getItemElements w next) } next,
       Completion.normal)
    | none => (s, Completion.normal)
  else
    let changedKeys := changedKeysOf lastState next
    let mustRecreate := _needsRecreate lastState next changedKeys
    match s.self.muuri with
    | none => acceptAndEnsure w s next
    | some _ =>
      if mustRecreate = false then
        let r := _applyLive w s next changedKeys
        if r.2.2 then
          ({ r.1 with self := { r.1.self with lastState := some r.2.1 } }, Completion.normal)
        else acceptAndEnsure w (_destroyMuuri r.1) r.2.1
      else acceptAndEnsure w (_destroyMuuri s) next

/-- The `try` block of `_syncFromAttributes`. -/
def syncTry (w : World) (s : Sys) : Sys × Completion :=
  let next0 := (_readStateFromAttributes w s.self).2
  let s0 : Sys := { s with self := (_readStateFromAttributes w s.self).1 }
  match _getHostDomNode w with
  | none => (s0, Completion.normal)
  | some hostNow =>
    let s1 := destroyIfHostChanged hostNow s0
    let a2 := (_ensureContainer w s1.self next0).1
    let next := (_applyConnectionPolicy w a2 next0).2
    let s3 : Sys := { s1 with self := (_applyConnectionPolicy w a2 next0).1 }
    match s3.self.lastState with
    | none => acceptAndEnsure w s3 next
    | some lastState => reconcile w s3 lastState next

/-- The method `_syncFromAttributes`: the guard, the `try` block, and the `finally` clause
that clears the flag however the block ended. -/
def _syncFromAttributes (w : World) (s : Sys) : Sys × Completion :=
  if s.self.syncInProgress then (s, Completion.normal)
  else
    let r := syncTry w { s with self := { s.self with syncInProgress := true } }
    ({ r.1 with self := { r.1.self with syncInProgress := false } }, r.2)

/-- The constructor, `new MuuriStoryView(listWidget)`, up to its direct call `kick()`: the fields
are initialised and one synchronization pass runs.  The second `kick`, handed to `nextTick`
or `setTimeout`, runs later as one more call of `_syncFromAttributes`.  The registry, the
identity counter and the trace are those of the page the adapter is constructed in. -/
def newMuuriStoryView (w : World) (page : Sys) : Sys × Completion :=
  _syncFromAttributes w { page with self := Adapter.init }

/-! ## Concrete collaborators -/

/-- An engine instance with the members of the Muuri grid, none of which throws. -/
def EngineBeh.muuri : EngineBeh :=
  { hasRefreshItems := true, refreshItemsThrows := false, hasLayout := true,
    layoutThrows := false, hasFilter := true, hasSettings := true, getItems := some [] }

/-- A page with no list host, no attributes and no loadable module. -/
def World.blank : World :=
  { parentDomNode := none, findFirstDomNode := none, widgetAttribute := fun _ => none,
    getTiddlerList := none, filterTiddlers := fun _ => none,
    getAnimationDuration := Val.num "400", isConnected := fun _ => true,
    attributes := fun _ => [], ancestors := fun _ => [],
    querySelectorAll := fun _ _ => some [], hostMatches := fun _ _ => false,
    closest := fun _ _ => false, dataset := fun _ _ => none,
    documentQuerySelector := fun _ => none, body := 0, hasMutationObserver := true,
    getMuuriCtor := fun _ => none, constructs := fun _ _ _ _ => true,
    fnModule := fun _ => false, jsonParse := fun _ => none, objectEntries := fun _ => [],
    numberText := fun _ => none, engine := fun _ => EngineBeh.muuri }

/-- A story river: the host element 1 holds the item elements 10, 11 and 12, which carry the
titles `a`, `b` and `c` and match every selector; the widget has no attribute and lists the
three titles; the engine module loads and its constructor returns. -/
def World.river : World :=
  { World.blank with
    parentDomNode := some 1
    getTiddlerList := some ["a", "b", "c"]
    attributes := fun el =>
      if el = 10 then [("data-tiddler-title", "a")]
      else if el = 11 then [("data-tiddler-title", "b")]
      else if el = 12 then [("data-tiddler-title", "c")]
      else []
    ancestors := fun el => if el = 10 ∨ el = 11 ∨ el = 12 then [1, 0] else if el = 1 then [0] else []
    querySelectorAll := fun host _ => if host = 1 then some [10, 11, 12] else some []
    getMuuriCtor := fun _ => some 7 }

/-- The adapter of a freshly constructed story view, with an empty registry. -/
def Sys.init : Sys := { self := Adapter.init, registry := [], nextId := 100, trace := [] }

/-! ## Vocabulary of the statements -/

/-- The descendants of the render host that match the item selector, in document order. -/
def selectorMatches (w : World) (state : Snapshot) : List Elem :=
  match _getHostDomNode w with
  | none => []
  | some host => (w.querySelectorAll host (itemsSelectorOf state)).getD []

/-- Whether the identifier of an element is a member of the reported list. -/
def titleListed (w : World) (titles : List String) (el : Elem) : Bool :=
  match itemTitle w el with
  | some t => decide (t ∈ titles)
  | none => false

/-- Whether the tagged host of a registered instance matches the selector, itself or through
an ancestor. -/
def hostConnected (w : World) (selector : String) (g : Grid) : Bool :=
  match g.twHost with
  | some host => w.hostMatches host selector || w.closest host selector
  | none => false

/-- A chain of elements cut after the render host, which stays in. -/
def upToHost (host : Option Elem) : List Elem → List Elem
  | [] => []
  | el :: rest => if host = some el then [el] else el :: upToHost host rest

/-- The snapshot `_readStateFromAttributes` starts from: every member at its default. -/
def Snapshot.defaults : Snapshot :=
  { moduleTitle := "$:/plugins/BTC/muuri-storyview/lib/muuri.js",
    itemsSelector := ".tc-tiddler-frame", containerClass := "", containerStyle := "",
    connectSelector := "", globalDragContainerSelector := ".tc-muuri-drag-container",
    filteringEnabled := false, twFilterExpression := "", twFilterSource := "title",
    options := [], sig := Sig.unset }

/-- The scenario of the item scope: selector `.card`, three matching elements with the
identifiers `a`, `b`, `c`, and a widget that reports `a` and `c`. -/
def World.cards : World := { World.river with getTiddlerList := some ["a", "c"] }

/-- The scenario of the filter: the story river whose widget carries
`muuri-enable-filtering="yes"` and `muuri-tw-filter="[tag[x]]"`, an expression that evaluates
to the single title `a`; the filter source is left at its default. -/
def World.filtering : World :=
  { World.river with
    widgetAttribute := fun name =>
      if name = "muuri-enable-filtering" then some "yes"
      else if name = "muuri-tw-filter" then some "[tag[x]]"
      else none
    filterTiddlers := fun expr => if expr = "[tag[x]]" then some ["a"] else none }

/-- The snapshot read in the scenario of the filter. -/
def Snapshot.filtering : Snapshot := (_readStateFromAttributes World.filtering Adapter.init).2

/-- The adapter after its first pass in the scenario of the filter: Active with the engine
instance 100, its allowed set holding the title `a`. -/
def Sys.filtering : Sys := (_syncFromAttributes World.filtering Sys.init).1

/-- An engine instance of another list, tagged with the host element 2. -/
def Grid.neighbour : Grid :=
  { id := 3, twListNode := none, twHost := some 2, twContainer := some 2 }

/-- The story river whose widget carries `muuri-connect-selector=".river"`, a selector that
the host elements 1 and 2 match. -/
def World.connected : World :=
  { World.river with
    widgetAttribute := fun name => if name = "muuri-connect-selector" then some ".river" else none
    hostMatches := fun el sel => sel == ".river" && (el == 1 || el == 2) }

/-- The adapter after its first pass on `World.connected`, in a process where the other list
has registered its instance before. -/
def Sys.connected : Sys :=
  (_syncFromAttributes World.connected { Sys.init with registry := [Grid.neighbour] }).1

/-- Whether a call only keeps the engine up to date: item refresh, layout or filtering. -/
def Event.isUpkeep : Event → Bool
  | Event.refreshItems _ _ => true
  | Event.layout _ => true
  | Event.filter _ _ => true
  | _ => false

/-- Whether a call constructs or destroys an engine instance. -/
def Event.isLifecycle : Event → Bool
  | Event.construct _ _ _ _ => true
  | Event.destroy _ => true
  | _ => false

/-- Whether the signature of a snapshot agrees with its nine configuration members, as it
does when `_readStateFromAttributes` has built it. -/
def Snapshot.SigCovers (st : Snapshot) : Prop :=
  st.sig.moduleTitle = st.moduleTitle ∧ st.sig.itemsSelector = st.itemsSelector ∧
  st.sig.containerClass = st.containerClass ∧ st.sig.containerStyle = st.containerStyle ∧
  st.sig.connectSelector = st.connectSelector ∧
  st.sig.globalDragContainerSelector = st.globalDragContainerSelector ∧
  st.sig.filteringEnabled = st.filteringEnabled ∧
  st.sig.twFilterExpression = st.twFilterExpression ∧
  st.sig.twFilterSource = st.twFilterSource

/-- The story river after the framework has replaced the host: the widget now renders into
the new, still empty element 2. -/
def World.hostReplaced : World := { World.river with parentDomNode := some 2 }

/-- The story river while the engine module cannot be loaded. -/
def World.noModule : World := { World.river with getMuuriCtor := fun _ => none }

/-- The story river with an engine constructor that throws. -/
def World.ctorThrows : World := { World.river with constructs := fun _ _ _ _ => false }

/-- The story river once the widget carries `muuri-items-selector=".card"`. -/
def World.cardSelector : World :=
  { World.river with
    widgetAttribute := fun name => if name = "muuri-items-selector" then some ".card" else none }

/-- The story river once the widget carries the bulk attribute
`muuri-opt-json` with the object whose only member is `dragEnabled: true`. -/
def World.dragEnabled : World :=
  { World.river with
    widgetAttribute := fun name =>
      if name = "muuri-opt-json" then some "\x7b\"dragEnabled\":true\x7d" else none
    jsonParse := fun text =>
      if text = "\x7b\"dragEnabled\":true\x7d" then
        some (Val.object "\x7b\"dragEnabled\":true\x7d")
      else none
    objectEntries := fun json =>
      if json = "\x7b\"dragEnabled\":true\x7d" then [("dragEnabled", Val.bool true)] else [] }

/-- The adapter after its first synchronization pass on the story river: Active, with the
engine instance 100 on the host element 1. -/
def Sys.running : Sys := (_syncFromAttributes World.river Sys.init).1

/-- The engine instance of `Sys.running`. -/
def Grid.first : Grid := { id := 100, twListNode := none, twHost := some 1, twContainer := some 1 }

/-- The engine instance a recreation of `Sys.running` constructs. -/
def Grid.second : Grid := { id := 101, twListNode := none, twHost := some 1, twContainer := some 1 }

/-- The widget carries `muuri-items-selector=".card"`, and its `parentDomNode` is gone. -/
def World.cardSelectorNoHost : World := { World.cardSelector with parentDomNode := none }

/-- The widget carries `muuri-items-selector=".card"`, and the engine module fails to load. -/
def World.cardSelectorNoModule : World :=
  { World.cardSelector with getMuuriCtor := fun _ => none }

/-- The widget carries `dragEnabled: true`, and the engine instances expose no `_settings`. -/
def World.dragEnabledNoSettings : World :=
  { World.dragEnabled with engine := fun _ => { EngineBeh.muuri with hasSettings := false } }

/-- The snapshot as `_applyConnectionPolicy` leaves it: the connection-provided options are
filled in.  What is written into the snapshot depends on the snapshot alone, not on the
adapter the policy is applied to. -/
def policySnapshot (w : World) (state : Snapshot) : Snapshot :=
  (_applyConnectionPolicy w Adapter.init state).2

/-- Whether no drag call on an item throws. -/
def ItemBeh.quiet (it : ItemBeh) : Bool :=
  it.drag.isSome && !it.enableThrows && !it.disableThrows

/-- Whether a live patch of the engine instance goes through: it exposes `_settings`, and
none of the calls `_applyLive` makes outside a `safe` of their own throws. -/
def EngineBeh.patchable (b : EngineBeh) : Bool :=
  b.hasSettings && !b.refreshItemsThrows && !b.layoutThrows && (b.getItems.getD []).all ItemBeh.quiet

/-- The calls made going from the trace `t` to the trace `t'` all satisfy `p`. -/
def Appends (p : Event → Bool) (t t' : List Event) : Prop :=
  ∃ evs, t' = t ++ evs ∧ ∀ e ∈ evs, p e = true

/-- The invariant of the adapter and the registry between two calls: the registry lists every
instance once, the identity counter is ahead of every instance it lists, the adapter's own
instance is listed, and the signature of the last accepted snapshot agrees with its
configuration members. -/
def Sys.WF (s : Sys) : Prop :=
  s.registry.Nodup ∧ (∀ g ∈ s.registry, g.id < s.nextId) ∧
  (∀ g, s.self.muuri = some g → g ∈ s.registry) ∧
  (∀ L, s.self.lastState = some L → L.SigCovers)

/-- The attributes `_readStateFromAttributes` enumerates for the names `muuri-opt-*` and
`muuri-fn-*`: those of the list node, or of the host when there is no list node (`attrs`;
no attribute at all when neither resolves). -/
def visibleAttributes (w : World) (listNode : Option Elem) : List (String × String) :=
  match listNode with
  | some n => w.attributes n
  | none =>
    match _getHostDomNode w with
    | some h => w.attributes h
    | none => []

/-- The members of the object the bulk attribute `muuri-opt-json` parses to (none when the
attribute is missing or does not parse to an object). -/
def bulkEntries (w : World) (listNode : Option Elem) : List (String × Val) :=
  match readAttr w listNode (_getHostDomNode w) "muuri-opt-json" with
  | some bulk =>
    match parseJSON w bulk with
    | Val.object j => w.objectEntries j
    | _ => []
  | none => []

/-- The value an attribute `muuri-opt-*` with the text `val` stands for:
`jsonVal !== null ? jsonVal : toPrimitive(val)`. -/
def optionValue (w : World) (val : String) : Val :=
  if parseJSON w val ≠ Val.null then parseJSON w val else toPrimitive w val

/-- The story river whose host element carries the attribute `muuri-fn-layout` naming the
module `title`; every module title resolves to a function. -/
def World.layoutFn (title : String) : World :=
  { World.river with
    attributes := fun el =>
      if el = 1 then [("muuri-fn-layout", title)] else World.river.attributes el
    fnModule := fun _ => true }

/-- The story river once the widget carries the bulk attribute `muuri-opt-json` with the
object whose only member is `layoutDuration: null`, and the host element an attribute
named `muuri-opt-` with the text `7`. -/
def World.nullDuration : World :=
  { World.river with
    widgetAttribute := fun name =>
      if name = "muuri-opt-json" then some "\x7b\"layoutDuration\":null\x7d" else none
    attributes := fun el =>
      if el = 1 then [("muuri-opt-", "7")] else World.river.attributes el
    jsonParse := fun text =>
      if text = "\x7b\"layoutDuration\":null\x7d" then
        some (Val.object "\x7b\"layoutDuration\":null\x7d")
      else if text = "7" then some (Val.num "7")
      else none
    objectEntries := fun json =>
      if json = "\x7b\"layoutDuration\":null\x7d" then [("layoutDuration", Val.null)] else [] }

/-- The value the snapshot holds for the option `k` once the three sources have given it
`v`: the statement that follows the three loops replaces a `layoutDuration` that is
`undefined` or `null` by `$tw.utils.getAnimationDuration()`. -/
def defaulted (w : World) (k : String) (v : Val) : Val :=
  if k = "layoutDuration" ∧ v.isSet = false then w.getAnimationDuration else v

/-- The story river with all three option sources in use: the bulk attribute gives
`layout`, `rounding` and `items`; the host element carries `muuri-opt-layout`,
`muuri-opt-rounding`, `muuri-fn-layout` (naming a module that resolves to a function) and
`muuri-fn-items` (naming a module that does not). -/
def World.layered : World :=
  { World.river with
    widgetAttribute := fun name =>
      if name = "muuri-opt-json" then some "\x7b\"layout\":1,\"rounding\":true,\"items\":2\x7d"
      else none
    attributes := fun el =>
      if el = 1 then
        [("muuri-opt-layout", "3"), ("muuri-opt-rounding", "false"),
         ("muuri-fn-layout", "$:/layout/a"), ("muuri-fn-items", "$:/missing")]
      else World.river.attributes el
    jsonParse := fun text =>
      if text = "\x7b\"layout\":1,\"rounding\":true,\"items\":2\x7d" then
        some (Val.object "\x7b\"layout\":1,\"rounding\":true,\"items\":2\x7d")
      else if text = "3" then some (Val.num "3")
      else if text = "false" then some (Val.bool false)
      else none
    objectEntries := fun json =>
      if json = "\x7b\"layout\":1,\"rounding\":true,\"items\":2\x7d" then
        [("layout", Val.num "1"), ("rounding", Val.bool true), ("items", Val.num "2")]
      else []
    fnModule := fun title => title = "$:/layout/a" }

/-! # Theorems -/

/-! ## Item scope -/

theorem collectItems_eq (w : World) (allowed : List String) (nodes out : List Elem) :
    collectItems w allowed nodes out = out ++ nodes.filter (titleListed w allowed) := by
  induction nodes generalizing out with
  | nil => simp [collectItems]
  | cons el rest ih =>
    unfold collectItems
    cases h : itemTitle w el with
    | none => simp [ih, titleListed, h]
    | some t =>
      by_cases ht : t ∈ allowed
      · simp [ih, titleListed, h, ht]
      · simp [ih, titleListed, h, ht]

/-- C6. When the widget reports its identifier list, `_getItemElements` returns exactly the
selector-matching descendants of the host, in document order, whose identifier
(`data-tiddler-title`, else `data-tiddler`) is a member of that list; so it never returns an
element whose identifier is missing or absent from the list. -/
theorem getItemElements_scoped (w : World) (state : Snapshot) (titles : List String)
    (hlist : w.getTiddlerList = some titles) :
    _getItemElements w state = (selectorMatches w state).filter (titleListed w titles) ∧
    ∀ el ∈ _getItemElements w state, ∃ t, itemTitle w el = some t ∧ t ∈ titles := by
  have heq : _getItemElements w state
      = (selectorMatches w state).filter (titleListed w titles) := by
    unfold _getItemElements selectorMatches
    cases hh : _getHostDomNode w with
    | none => simp
    | some host =>
      cases hq : w.querySelectorAll host (itemsSelectorOf state) with
      | none => simp [hq]
      | some nodes =>
        by_cases hn : nodes.length = 0
        · have : nodes = [] := List.length_eq_zero.mp hn
          simp [hq, this]
        · simp [hq, hn, _getListTitlesSet, hlist, collectItems_eq]
  refine ⟨heq, ?_⟩
  intro el hel
  rw [heq] at hel
  have hlisted := (List.mem_filter.mp hel).2
  unfold titleListed at hlisted
  cases ht : itemTitle w el with
  | none => simp [ht] at hlisted
  | some t =>
    simp [ht] at hlisted
    exact ⟨t, rfl, hlisted⟩

/-- C6, the scenario: three matching elements with the identifiers `a`, `b`, `c` and the
reported list `a`, `c` give exactly the elements of `a` and `c`. -/
theorem getItemElements_scoped_cards :
    World.cards.getTiddlerList = some ["a", "c"] ∧
    selectorMatches World.cards { Snapshot.defaults with itemsSelector := ".card" }
      = [10, 11, 12] ∧
    _getItemElements World.cards { Snapshot.defaults with itemsSelector := ".card" }
      = [10, 12] :=
  ⟨rfl, by decide, by
    rw [(getItemElements_scoped World.cards _ ["a", "c"] rfl).1]
    decide⟩

/-! ## Connection registry -/

theorem addToRegistry_nodup (grid : Grid) (reg : List Grid) (h : reg.Nodup) :
    (addToRegistry grid reg).Nodup := by
  unfold addToRegistry
  by_cases hm : grid ∈ reg
  · simpa [hm] using h
  · simp only [hm, if_false]
    exact List.Nodup.append h (List.nodup_singleton grid) (by simpa using hm)

theorem removeFromRegistry_nodup (grid : Grid) (reg : List Grid) (h : reg.Nodup) :
    (removeFromRegistry grid reg).Nodup ∧ grid ∉ removeFromRegistry grid reg := by
  unfold removeFromRegistry
  exact ⟨h.erase grid, fun hm => ((List.Nodup.mem_erase_iff h).mp hm).1 rfl⟩

theorem mem_addToRegistry (grid : Grid) (reg : List Grid) : grid ∈ addToRegistry grid reg := by
  unfold addToRegistry
  split_ifs with h
  · exact h
  · simp

theorem mem_addToRegistry_iff (x grid : Grid) (reg : List Grid) :
    x ∈ addToRegistry grid reg ↔ x = grid ∨ x ∈ reg := by
  unfold addToRegistry
  split_ifs with h
  · constructor
    · exact fun hx => Or.inr hx
    · rintro (rfl | hx)
      · exact h
      · exact hx
  · simp [or_comm]

theorem collectConnected_eq (w : World) (selector : String) (reg result : List Grid) :
    collectConnected w selector reg result
      = result ++ reg.filter (hostConnected w selector) := by
  induction reg generalizing result with
  | nil => simp [collectConnected]
  | cons g rest ih =>
    unfold collectConnected
    cases hh : g.twHost with
    | none => simp [ih, hostConnected, hh]
    | some host =>
      by_cases hm : (w.hostMatches host selector || w.closest host selector) = true
      · simp only [hm, if_true, ih]
        simp [List.filter_cons, hostConnected, hh, hm]
      · simp only [hm, if_false, ih]
        simp [List.filter_cons, hostConnected, hh, hm]

theorem strOr_empty (a : String) : strOr a "" = a := by
  unfold strOr
  split <;> simp_all

theorem truthyStr_ne_empty {o : Option String} {t : String} (h : truthyStr o = some t) :
    t ≠ "" := by
  unfold truthyStr at h
  cases o with
  | none => simp at h
  | some v =>
    by_cases hv : v = ""
    · simp [hv] at h
    · simp [hv] at h
      exact h ▸ hv

theorem truthyStr_of_ne_empty {t : String} (h : t ≠ "") : truthyStr (some t) = some t := by
  simp [truthyStr, h]

theorem titleMarker_ne_empty {w : World} {el : Elem} {t : String}
    (h : titleMarker w el = some t) : t ≠ "" := by
  unfold titleMarker at h
  cases h1 : truthyStr (getAttribute w el "data-tiddler-title") with
  | some a =>
    rw [h1] at h
    simp at h
    exact h ▸ truthyStr_ne_empty h1
  | none =>
    rw [h1] at h
    cases h2 : truthyStr (getAttribute w el "data-tiddler") with
    | some a =>
      rw [h2] at h
      simp at h
      exact h ▸ truthyStr_ne_empty h2
    | none =>
      rw [h2] at h
      exact truthyStr_ne_empty h

theorem walkForTitle_eq (w : World) (host : Option Elem) (chain : List Elem) :
    walkForTitle w host chain = (upToHost host chain).findSome? (titleMarker w) := by
  induction chain with
  | nil => simp [walkForTitle, upToHost]
  | cons el rest ih =>
    unfold walkForTitle upToHost
    cases hm : titleMarker w el with
    | some t =>
      by_cases hh : host = some el
      · simp [hh, List.findSome?_cons, hm]
      · simp [hh, List.findSome?_cons, hm]
    | none =>
      by_cases hh : host = some el
      · simp [hh, List.findSome?_cons, hm]
      · simp [hh, List.findSome?_cons, hm, ih]

theorem walkForTitle_ne_empty {w : World} {host : Option Elem} {chain : List Elem} {t : String}
    (h : walkForTitle w host chain = some t) : t ≠ "" := by
  induction chain with
  | nil => simp [walkForTitle] at h
  | cons el rest ih =>
    unfold walkForTitle at h
    cases hm : titleMarker w el with
    | some a =>
      rw [hm] at h
      simp at h
      exact h ▸ titleMarker_ne_empty hm
    | none =>
      rw [hm] at h
      by_cases hh : host = some el
      · simp [hh] at h
      · simp [hh] at h
        exact ih h

theorem extractTitle_ne_empty {w : World} {el : Elem} {state : Snapshot} {t : String}
    (h : _extractTitleFromElement w el state = some t) : t ≠ "" := by
  unfold _extractTitleFromElement at h
  simp only at h
  split at h
  · exact truthyStr_ne_empty h
  · split at h
    · exact truthyStr_ne_empty h
    · exact walkForTitle_ne_empty h

theorem applyFiltering_of_engine (w : World) (s : Sys) (state : Snapshot) (g : Grid)
    (hself : s.self.muuri = some g) (hfilter : (w.engine g.id).hasFilter = true) :
    _applyFiltering w s state =
      { s with
        self := _recomputeAllowedTitles w s.self state
        trace := s.trace ++ [Event.filter g.id
          (match (_recomputeAllowedTitles w s.self state).twAllowedTitles with
           | none => FilterPred.acceptAll
           | some allowed => FilterPred.byTitle allowed state)] } := by
  unfold _applyFiltering
  simp only [hself, hfilter]
  cases h : (_recomputeAllowedTitles w s.self state).twAllowedTitles <;> simp [h]

/-- C8. When filtering is disabled or the filter expression is empty after trimming, then
whatever the allowed-identifier set was before, `_applyFiltering` (on an adapter whose engine
has a `filter` method) sets the allowed set to `null` and hands the engine a predicate that
answers `true` for every item. -/
theorem applyFiltering_disabled_shows_all (w : World) (s : Sys) (state : Snapshot) (g : Grid)
    (hself : s.self.muuri = some g) (hfilter : (w.engine g.id).hasFilter = true)
    (hoff : state.filteringEnabled = false ∨ jsTrim state.twFilterExpression = "") :
    (_applyFiltering w s state).self.twAllowedTitles = none ∧
    (_applyFiltering w s state).trace = s.trace ++ [Event.filter g.id FilterPred.acceptAll] ∧
    ∀ (w' : World) (element : Elem), FilterPred.eval w' FilterPred.acceptAll element = true := by
  have hnone : (_recomputeAllowedTitles w s.self state).twAllowedTitles = none := by
    unfold _recomputeAllowedTitles
    simp only [strOr_empty]
    rw [if_pos hoff]
  rw [applyFiltering_of_engine w s state g hself hfilter]
  simp [hnone, FilterPred.eval]

/-- C8, an instance: the adapter whose allowed set holds the title `a` from the scenario of
the filter gets the accept-all predicate as soon as a snapshot without filtering is
applied. -/
theorem applyFiltering_disabled_shows_all_after_filter :
    Sys.filtering.self.twAllowedTitles = some ["a"] ∧
    Snapshot.defaults.filteringEnabled = false ∧
    (_applyFiltering World.river Sys.filtering Snapshot.defaults).self.twAllowedTitles = none ∧
    (_applyFiltering World.river Sys.filtering Snapshot.defaults).trace
      = Sys.filtering.trace ++ [Event.filter 100 FilterPred.acceptAll] :=
  ⟨by decide, rfl,
   (applyFiltering_disabled_shows_all World.river Sys.filtering Snapshot.defaults Grid.first
      (by decide) rfl (Or.inl rfl)).1,
   by decide⟩

/-- C9. When filtering is enabled and the filter expression evaluates to the list `L`,
`_applyFiltering` hands the engine a predicate that answers `true` for an element exactly
when `_extractTitleFromElement` gives an identifier and that identifier is a member of `L`;
and in the default source mode the identifier is the first non-empty of `data-tiddler-title`,
`data-tiddler`, `title` met on the way from the element up to and including the render
host. -/
theorem applyFiltering_enabled_predicate (w : World) (s : Sys) (state : Snapshot) (g : Grid)
    (L : List String)
    (hself : s.self.muuri = some g) (hfilter : (w.engine g.id).hasFilter = true)
    (hon : state.filteringEnabled = true)
    (hL : w.filterTiddlers (jsTrim state.twFilterExpression) = some L)
    (hexpr : jsTrim state.twFilterExpression ≠ "") :
    (_applyFiltering w s state).trace
      = s.trace ++ [Event.filter g.id (FilterPred.byTitle L state)] ∧
    (∀ (w' : World) (element : Elem),
      FilterPred.eval w' (FilterPred.byTitle L state) element = true ↔
        ∃ t, _extractTitleFromElement w' element state = some t ∧ t ∈ L) ∧
    (startsWith "dataset:" (jsTrim (strOr state.twFilterSource "title")) = false →
      startsWith "field:" (jsTrim (strOr state.twFilterSource "title")) = false →
      ∀ (w' : World) (element : Elem),
        _extractTitleFromElement w' element state
          = (upToHost w'.parentDomNode (element :: w'.ancestors element)).findSome?
              (titleMarker w')) := by
  have hsome : (_recomputeAllowedTitles w s.self state).twAllowedTitles = some L := by
    unfold _recomputeAllowedTitles
    simp only [strOr_empty]
    rw [if_neg (by simp [hon, hexpr]), hL]
  refine ⟨?_, ?_, ?_⟩
  · rw [applyFiltering_of_engine w s state g hself hfilter]
    simp [hsome]
  · intro w' element
    unfold FilterPred.eval
    cases hx : _extractTitleFromElement w' element state with
    | none => simp [hx, truthyStr]
    | some t => simp [hx, truthyStr_of_ne_empty (extractTitle_ne_empty hx)]
  · intro hd hf w' element
    unfold _extractTitleFromElement
    simp [hd, hf, walkForTitle_eq, _getHostDomNode]

/-- C9, the scenario: the expression evaluates to the single title `a`, default source mode;
the predicate handed to the engine is true for the element that carries `a` and false for
the two others. -/
theorem applyFiltering_enabled_predicate_single_title :
    Snapshot.filtering.filteringEnabled = true ∧
    Snapshot.filtering.twFilterSource = "title" ∧
    (_applyFiltering World.filtering Sys.running Snapshot.filtering).trace
      = Sys.running.trace ++ [Event.filter 100 (FilterPred.byTitle ["a"] Snapshot.filtering)] ∧
    FilterPred.eval World.filtering (FilterPred.byTitle ["a"] Snapshot.filtering) 10 = true ∧
    FilterPred.eval World.filtering (FilterPred.byTitle ["a"] Snapshot.filtering) 11 = false ∧
    FilterPred.eval World.filtering (FilterPred.byTitle ["a"] Snapshot.filtering) 12 = false :=
  ⟨by decide, by decide,
   (applyFiltering_enabled_predicate World.filtering Sys.running Snapshot.filtering Grid.first
      ["a"] (by decide) rfl (by decide) (by decide) (by decide)).1,
   by decide, by decide, by decide⟩

/-! ## Frame lemmas: what the helper methods leave alone -/

@[simp] theorem getListDomNode_muuri (w : World) (a : Adapter) :
    (_getListDomNode w a).1.muuri = a.muuri := by
  unfold _getListDomNode; split <;> (try split) <;> rfl

@[simp] theorem getListDomNode_lastState (w : World) (a : Adapter) :
    (_getListDomNode w a).1.lastState = a.lastState := by
  unfold _getListDomNode; split <;> (try split) <;> rfl

@[simp] theorem getListDomNode_syncInProgress (w : World) (a : Adapter) :
    (_getListDomNode w a).1.syncInProgress = a.syncInProgress := by
  unfold _getListDomNode; split <;> (try split) <;> rfl

theorem getListDomNode_flag (w : World) (a : Adapter) (b : Bool) :
    (_getListDomNode w { a with syncInProgress := b }).2 = (_getListDomNode w a).2 := by
  unfold _getListDomNode
  dsimp only
  split <;> (try split) <;> rfl

@[simp] theorem readState_muuri (w : World) (a : Adapter) :
    (_readStateFromAttributes w a).1.muuri = a.muuri := by
  simp [_readStateFromAttributes]

@[simp] theorem readState_lastState (w : World) (a : Adapter) :
    (_readStateFromAttributes w a).1.lastState = a.lastState := by
  simp [_readStateFromAttributes]

@[simp] theorem readState_syncInProgress (w : World) (a : Adapter) :
    (_readStateFromAttributes w a).1.syncInProgress = a.syncInProgress := by
  simp [_readStateFromAttributes]

theorem readState_flag (w : World) (a : Adapter) (b : Bool) :
    (_readStateFromAttributes w { a with syncInProgress := b }).2
      = (_readStateFromAttributes w a).2 := by
  simp [_readStateFromAttributes, getListDomNode_flag]

theorem readSnapshot_sigCovers (w : World) (listNode : Option Elem) :
    (readSnapshot w listNode).SigCovers := by
  simp [Snapshot.SigCovers, readSnapshot, stableSigState]

theorem readState_sigCovers (w : World) (a : Adapter) :
    (_readStateFromAttributes w a).2.SigCovers :=
  readSnapshot_sigCovers w _

@[simp] theorem ensureContainer_muuri (w : World) (a : Adapter) (st : Snapshot) :
    (_ensureContainer w a st).1.muuri = a.muuri := by
  unfold _ensureContainer; split <;> rfl

@[simp] theorem ensureContainer_lastState (w : World) (a : Adapter) (st : Snapshot) :
    (_ensureContainer w a st).1.lastState = a.lastState := by
  unfold _ensureContainer; split <;> rfl

@[simp] theorem ensureContainer_syncInProgress (w : World) (a : Adapter) (st : Snapshot) :
    (_ensureContainer w a st).1.syncInProgress = a.syncInProgress := by
  unfold _ensureContainer; split <;> rfl

@[simp] theorem ensureContainer_snd (w : World) (a : Adapter) (st : Snapshot) :
    (_ensureContainer w a st).2 = w.parentDomNode := by
  unfold _ensureContainer _getHostDomNode; split <;> simp_all

@[simp] theorem policy_muuri (w : World) (a : Adapter) (st : Snapshot) :
    (_applyConnectionPolicy w a st).1.muuri = a.muuri := by
  unfold _applyConnectionPolicy
  dsimp only
  split_ifs <;> rfl

@[simp] theorem policy_lastState (w : World) (a : Adapter) (st : Snapshot) :
    (_applyConnectionPolicy w a st).1.lastState = a.lastState := by
  unfold _applyConnectionPolicy
  dsimp only
  split_ifs <;> rfl

@[simp] theorem policy_syncInProgress (w : World) (a : Adapter) (st : Snapshot) :
    (_applyConnectionPolicy w a st).1.syncInProgress = a.syncInProgress := by
  unfold _applyConnectionPolicy
  dsimp only
  split_ifs <;> rfl

@[simp] theorem policy_sig (w : World) (a : Adapter) (st : Snapshot) :
    (_applyConnectionPolicy w a st).2.sig = st.sig := by
  unfold _applyConnectionPolicy
  dsimp only
  split_ifs <;> rfl

@[simp] theorem policy_moduleTitle (w : World) (a : Adapter) (st : Snapshot) :
    (_applyConnectionPolicy w a st).2.moduleTitle = st.moduleTitle := by
  unfold _applyConnectionPolicy
  dsimp only
  split_ifs <;> rfl

@[simp] theorem policy_itemsSelector (w : World) (a : Adapter) (st : Snapshot) :
    (_applyConnectionPolicy w a st).2.itemsSelector = st.itemsSelector := by
  unfold _applyConnectionPolicy
  dsimp only
  split_ifs <;> rfl

@[simp] theorem recompute_muuri (w : World) (a : Adapter) (st : Snapshot) :
    (_recomputeAllowedTitles w a st).muuri = a.muuri := by
  unfold _recomputeAllowedTitles
  dsimp only
  split_ifs <;> (try split) <;> rfl

@[simp] theorem recompute_lastState (w : World) (a : Adapter) (st : Snapshot) :
    (_recomputeAllowedTitles w a st).lastState = a.lastState := by
  unfold _recomputeAllowedTitles
  dsimp only
  split_ifs <;> (try split) <;> rfl

@[simp] theorem recompute_syncInProgress (w : World) (a : Adapter) (st : Snapshot) :
    (_recomputeAllowedTitles w a st).syncInProgress = a.syncInProgress := by
  unfold _recomputeAllowedTitles
  dsimp only
  split_ifs <;> (try split) <;> rfl

@[simp] theorem installWatcher_muuri (w : World) (a : Adapter) :
    (_installAttributeWatcher w a).muuri = a.muuri := by
  unfold _installAttributeWatcher
  split_ifs
  · rfl
  · dsimp only
    split <;> (try split) <;> simp

@[simp] theorem installWatcher_lastState (w : World) (a : Adapter) :
    (_installAttributeWatcher w a).lastState = a.lastState := by
  unfold _installAttributeWatcher
  split_ifs
  · rfl
  · dsimp only
    split <;> (try split) <;> simp

@[simp] theorem installWatcher_syncInProgress (w : World) (a : Adapter) :
    (_installAttributeWatcher w a).syncInProgress = a.syncInProgress := by
  unfold _installAttributeWatcher
  split_ifs
  · rfl
  · dsimp only
    split <;> (try split) <;> simp

/-- What `_applyFiltering` does to the system: the adapter keeps its engine, its last snapshot
and its flag, the registry and the counter stay, and at most one `filter` call is made. -/
theorem applyFiltering_frame (w : World) (s : Sys) (st : Snapshot) :
    (_applyFiltering w s st).self.muuri = s.self.muuri ∧
    (_applyFiltering w s st).self.lastState = s.self.lastState ∧
    (_applyFiltering w s st).self.syncInProgress = s.self.syncInProgress ∧
    (_applyFiltering w s st).registry = s.registry ∧
    (_applyFiltering w s st).nextId = s.nextId ∧
    ∃ evs, (_applyFiltering w s st).trace = s.trace ++ evs ∧ ∀ e ∈ evs, e.isUpkeep = true := by
  cases hm : s.self.muuri with
  | none =>
    have h : _applyFiltering w s st = s := by simp [_applyFiltering, hm]
    rw [h]
    exact ⟨hm, rfl, rfl, rfl, rfl, [], by simp, by simp⟩
  | some g =>
    by_cases hf : (w.engine g.id).hasFilter = true
    · rw [applyFiltering_of_engine w s st g hm hf]
      exact ⟨by simp [hm], by simp, by simp, rfl, rfl, _, rfl, by simp [Event.isUpkeep]⟩
    · have h : _applyFiltering w s st = s := by simp [_applyFiltering, hm, hf]
      rw [h]
      exact ⟨hm, rfl, rfl, rfl, rfl, [], by simp, by simp⟩

theorem refreshItemsLayout_upkeep (w : World) (g : Grid) (items : List Elem) :
    ∀ e ∈ refreshItemsLayout w g items, e.isUpkeep = true := by
  unfold refreshItemsLayout
  dsimp only
  split_ifs <;> simp [Event.isUpkeep]

/-! ## Lifecycle lemmas -/

@[simp] theorem applyFiltering_muuri (w : World) (s : Sys) (st : Snapshot) :
    (_applyFiltering w s st).self.muuri = s.self.muuri := (applyFiltering_frame w s st).1

@[simp] theorem applyFiltering_lastState (w : World) (s : Sys) (st : Snapshot) :
    (_applyFiltering w s st).self.lastState = s.self.lastState :=
  (applyFiltering_frame w s st).2.1

@[simp] theorem applyFiltering_syncInProgress (w : World) (s : Sys) (st : Snapshot) :
    (_applyFiltering w s st).self.syncInProgress = s.self.syncInProgress :=
  (applyFiltering_frame w s st).2.2.1

@[simp] theorem applyFiltering_registry (w : World) (s : Sys) (st : Snapshot) :
    (_applyFiltering w s st).registry = s.registry := (applyFiltering_frame w s st).2.2.2.1

@[simp] theorem applyFiltering_nextId (w : World) (s : Sys) (st : Snapshot) :
    (_applyFiltering w s st).nextId = s.nextId := (applyFiltering_frame w s st).2.2.2.2.1

theorem applyFiltering_trace (w : World) (s : Sys) (st : Snapshot) :
    ∃ evs, (_applyFiltering w s st).trace = s.trace ++ evs ∧ ∀ e ∈ evs, e.isUpkeep = true :=
  (applyFiltering_frame w s st).2.2.2.2.2

theorem policy_snapshot_eq (w : World) (a : Adapter) (st : Snapshot) :
    (_applyConnectionPolicy w a st).2 = policySnapshot w st := by
  unfold policySnapshot _applyConnectionPolicy _resolveGlobalDragContainer
  dsimp only
  split_ifs <;> rfl

@[simp] theorem policySnapshot_sig (w : World) (st : Snapshot) :
    (policySnapshot w st).sig = st.sig := policy_sig w _ st

@[simp] theorem policySnapshot_moduleTitle (w : World) (st : Snapshot) :
    (policySnapshot w st).moduleTitle = st.moduleTitle := policy_moduleTitle w _ st

@[simp] theorem policySnapshot_itemsSelector (w : World) (st : Snapshot) :
    (policySnapshot w st).itemsSelector = st.itemsSelector := policy_itemsSelector w _ st

theorem destroyMuuri_of_some (s : Sys) (g : Grid) (h : s.self.muuri = some g) :
    _destroyMuuri s =
      { s with
        registry := removeFromRegistry g s.registry
        trace := s.trace ++ [Event.destroy g.id]
        self := { s.self with muuri := none, muuriCtor := none } } := by
  simp [_destroyMuuri, h]

theorem ensureMuuri_of_some (w : World) (s : Sys) (st : Snapshot) (g : Grid)
    (h : s.self.muuri = some g) : _ensureMuuri w s st = (s, st, Completion.normal) := by
  simp [_ensureMuuri, h]

theorem ensureMuuri_of_no_host (w : World) (s : Sys) (st : Snapshot)
    (h : w.parentDomNode = none) : _ensureMuuri w s st = (s, st, Completion.normal) := by
  unfold _ensureMuuri
  cases s.self.muuri <;> simp [_getHostDomNode, h]

/-- What `constructMuuri` guarantees however it ends. -/
theorem constructMuuri_post (w : World) (s : Sys) (st : Snapshot) (host container : Elem)
    (ctor : Ctor) :
    (constructMuuri w s st host container ctor).1.self.lastState = s.self.lastState ∧
    (constructMuuri w s st host container ctor).1.self.syncInProgress
      = s.self.syncInProgress ∧
    ∀ g, (constructMuuri w s st host container ctor).1.self.muuri = some g →
      s.self.muuri = some g ∨ g.twHost = some host := by
  unfold constructMuuri
  dsimp only
  split_ifs with hk
  · exact ⟨rfl, rfl, fun g hg => Or.inl hg⟩
  · refine ⟨by simp, by simp, fun g hg => Or.inr ?_⟩
    simp at hg
    rw [← hg]
    rfl

/-- A successful construction: the adapter owns a new instance tagged with the host, the
instance is registered, and after the constructor call only upkeep calls are made. -/
theorem constructMuuri_ok (w : World) (s : Sys) (st : Snapshot) (host container : Elem)
    (ctor : Ctor)
    (hk : w.constructs ctor container st.options (_getItemElements w st) = true) :
    (constructMuuri w s st host container ctor).2 = Completion.normal ∧
    (constructMuuri w s st host container ctor).1.nextId = s.nextId + 1 ∧
    ∃ g evs, (constructMuuri w s st host container ctor).1.self.muuri = some g ∧
      g.id = s.nextId ∧ g.twHost = some host ∧
      (constructMuuri w s st host container ctor).1.registry = addToRegistry g s.registry ∧
      (constructMuuri w s st host container ctor).1.trace
        = s.trace ++ Event.construct ctor container st.options (_getItemElements w st) :: evs ∧
      ∀ e ∈ evs, e.isUpkeep = true := by
  obtain ⟨evs, hevs, hup⟩ := applyFiltering_trace w
    { self := { (_getListDomNode w s.self).1 with muuri := some (newGrid w s host container) }
      registry := addToRegistry (newGrid w s host container) s.registry
      nextId := s.nextId + 1
      trace := s.trace ++ [Event.construct ctor container st.options (_getItemElements w st)] ++
        refreshItemsLayout w (newGrid w s host container) (_getItemElements w st) } st
  unfold constructMuuri
  simp only [hk]
  refine ⟨by simp, by simp, newGrid w s host container,
    refreshItemsLayout w (newGrid w s host container) (_getItemElements w st) ++ evs,
    by simp, rfl, rfl, by simp, ?_, ?_⟩
  · simp only [Bool.true_eq_false, if_false, hevs]
    simp
  · intro e he
    rcases List.mem_append.mp he with h | h
    · exact refreshItemsLayout_upkeep _ _ _ e h
    · exact hup e h

/-- What `_ensureMuuri` guarantees however it ends. -/
theorem ensureMuuri_post (w : World) (s : Sys) (st : Snapshot) :
    (_ensureMuuri w s st).2.1.sig = st.sig ∧
    (_ensureMuuri w s st).1.self.lastState = s.self.lastState ∧
    (_ensureMuuri w s st).1.self.syncInProgress = s.self.syncInProgress ∧
    ∀ g, (_ensureMuuri w s st).1.self.muuri = some g →
      s.self.muuri = some g ∨ (g.twHost ≠ none ∧ g.twHost = w.parentDomNode) := by
  cases hm : s.self.muuri with
  | some g0 =>
    rw [ensureMuuri_of_some w s st g0 hm]
    exact ⟨rfl, rfl, rfl, fun g hg => Or.inl (hm ▸ hg)⟩
  | none =>
    cases hh : w.parentDomNode with
    | none =>
      rw [ensureMuuri_of_no_host w s st hh]
      refine ⟨rfl, rfl, rfl, fun g hg => ?_⟩
      rw [hm] at hg
      exact absurd hg (by simp)
    | some host =>
      unfold _ensureMuuri
      simp only [hm, _getHostDomNode, hh, ensureContainer_snd]
      cases hc : w.getMuuriCtor
          (_applyConnectionPolicy w (_ensureContainer w s.self st).1 st).2.moduleTitle with
      | none => simp [hm]
      | some ctor =>
        dsimp only
        obtain ⟨h1, h2, h3⟩ := constructMuuri_post w
          { s with self :=
              { (_applyConnectionPolicy w (_ensureContainer w s.self st).1 st).1 with
                muuriCtor := some ctor } }
          (_applyConnectionPolicy w (_ensureContainer w s.self st).1 st).2 host host ctor
        refine ⟨by simp, by simpa using h1, by simpa using h2, fun g hg => ?_⟩
        rcases h3 g hg with h | h
        · simp [hm] at h
        · exact Or.inr ⟨by simp [h], h⟩

theorem ensureMuuri_creates (w : World) (s : Sys) (st : Snapshot) (host : Elem) (ctor : Ctor)
    (hm : s.self.muuri = none) (hh : w.parentDomNode = some host)
    (hc : w.getMuuriCtor st.moduleTitle = some ctor)
    (hk : ∀ c o i, w.constructs ctor c o i = true) :
    (_ensureMuuri w s st).2.1 = policySnapshot w st ∧
    (_ensureMuuri w s st).2.2 = Completion.normal ∧
    (_ensureMuuri w s st).1.nextId = s.nextId + 1 ∧
    ∃ g evs, (_ensureMuuri w s st).1.self.muuri = some g ∧ g.id = s.nextId ∧
      g.twHost = some host ∧
      (_ensureMuuri w s st).1.registry = addToRegistry g s.registry ∧
      (_ensureMuuri w s st).1.trace
        = s.trace ++ Event.construct ctor host (policySnapshot w st).options
            (_getItemElements w (policySnapshot w st)) :: evs ∧
      ∀ e ∈ evs, e.isUpkeep = true := by
  have hok := constructMuuri_ok w
    { s with self :=
        { (_applyConnectionPolicy w (_ensureContainer w s.self st).1 st).1 with
          muuriCtor := some ctor } }
    (policySnapshot w st) host host ctor (hk _ _ _)
  unfold _ensureMuuri
  simp only [hm, _getHostDomNode, hh, ensureContainer_snd, policy_moduleTitle, hc,
    policy_snapshot_eq, policySnapshot_moduleTitle]
  exact ⟨trivial, hok⟩

/-! ## Traces -/

theorem Appends.refl (p : Event → Bool) (t : List Event) : Appends p t t :=
  ⟨[], by simp, by simp⟩

theorem Appends.trans {p : Event → Bool} {t t' t'' : List Event}
    (h : Appends p t t') (h' : Appends p t' t'') : Appends p t t'' := by
  obtain ⟨e1, rfl, h1⟩ := h
  obtain ⟨e2, rfl, h2⟩ := h'
  refine ⟨e1 ++ e2, by simp, fun e he => ?_⟩
  rcases List.mem_append.mp he with h | h
  · exact h1 e h
  · exact h2 e h

theorem Appends.append {p : Event → Bool} (t l : List Event) (h : ∀ e ∈ l, p e = true) :
    Appends p t (t ++ l) := ⟨l, rfl, h⟩

theorem Appends.mono {p q : Event → Bool} {t t' : List Event}
    (hpq : ∀ e, p e = true → q e = true) (h : Appends p t t') : Appends q t t' := by
  obtain ⟨e1, rfl, h1⟩ := h
  exact ⟨e1, rfl, fun e he => hpq e (h1 e he)⟩

theorem upkeep_not_lifecycle (e : Event) (h : e.isUpkeep = true) : (!e.isLifecycle) = true := by
  cases e <;> simp_all [Event.isUpkeep, Event.isLifecycle]

theorem applyFiltering_appends (w : World) (s : Sys) (st : Snapshot) :
    Appends Event.isUpkeep s.trace (_applyFiltering w s st).trace :=
  applyFiltering_trace w s st

theorem writeChangedKeys_not_lifecycle (grid : Nat) (a : Adapter) (st : Snapshot)
    (keys : List String) : ∀ e ∈ writeChangedKeys grid a st keys, (!e.isLifecycle) = true := by
  induction keys with
  | nil => simp [writeChangedKeys]
  | cons k rest ih =>
    unfold writeChangedKeys
    split_ifs
    · exact ih
    · exact ih
    · intro e he
      rcases List.mem_cons.mp he with h | h
      · subst h; rfl
      · exact ih e h

theorem toggleDrag_not_lifecycle (grid : Nat) (enable : Bool) (items : List ItemBeh) (i : Nat) :
    ∀ e ∈ (toggleDrag grid enable items i).1, (!e.isLifecycle) = true := by
  induction items generalizing i with
  | nil => simp [toggleDrag]
  | cons it rest ih =>
    unfold toggleDrag
    cases hd : it.drag with
    | none => simp
    | some b =>
      cases b with
      | false => simpa using ih (i + 1)
      | true =>
        dsimp only
        split_ifs
        · simp [Event.isLifecycle]
        · intro e he
          rcases List.mem_cons.mp he with h | h
          · subst h; rfl
          · exact ih (i + 1) e h
        · exact ih (i + 1)
        · simp [Event.isLifecycle]
        · intro e he
          rcases List.mem_cons.mp he with h | h
          · subst h; rfl
          · exact ih (i + 1) e h
        · exact ih (i + 1)

theorem toggleDrag_quiet (grid : Nat) (enable : Bool) (items : List ItemBeh) (i : Nat)
    (h : items.all ItemBeh.quiet = true) : (toggleDrag grid enable items i).2 = false := by
  induction items generalizing i with
  | nil => simp [toggleDrag]
  | cons it rest ih =>
    simp only [List.all_cons, Bool.and_eq_true] at h
    obtain ⟨hq, hrest⟩ := h
    simp only [ItemBeh.quiet, Bool.and_eq_true, Bool.not_eq_true', Option.isSome_iff_exists] at hq
    obtain ⟨⟨⟨b, hb⟩, he⟩, hd⟩ := hq
    unfold toggleDrag
    rw [hb]
    cases b with
    | false => simpa using ih (i + 1) hrest
    | true =>
      dsimp only
      simp only [he, hd]
      split_ifs <;> first | exact ih (i + 1) hrest | contradiction

/-! ## Live patch -/

theorem applyLive_of_none (w : World) (s : Sys) (st : Snapshot) (keys : List String)
    (h : s.self.muuri = none) : _applyLive w s st keys = (s, st, false) := by
  simp [_applyLive, h]

theorem patch_shape (p : Event → Bool) (W D R L : List Event) (d c l : Bool)
    (hW : ∀ e ∈ W, p e = true) (hD : ∀ e ∈ D, p e = true) (hR : ∀ e ∈ R, p e = true)
    (hL : ∀ e ∈ L, p e = true) :
    ∀ e ∈ (if d = true then (W ++ D, false)
      else if c = true then (W ++ D ++ R, false) else (W ++ D ++ R ++ L, l)).1, p e = true := by
  intro e he
  split_ifs at he
  · rcases List.mem_append.mp he with h | h
    · exact hW e h
    · exact hD e h
  · rcases List.mem_append.mp he with h | h
    · rcases List.mem_append.mp h with h | h
      · exact hW e h
      · exact hD e h
    · exact hR e h
  · rcases List.mem_append.mp he with h | h
    · rcases List.mem_append.mp h with h | h
      · rcases List.mem_append.mp h with h | h
        · exact hW e h
        · exact hD e h
      · exact hR e h
    · exact hL e h

theorem livePatchCalls_not_lifecycle (w : World) (grid : Grid) (a : Adapter) (st : Snapshot)
    (keys : List String) :
    ∀ e ∈ (livePatchCalls w grid a st keys).1, (!e.isLifecycle) = true := by
  have hw : ∀ e ∈ ((if a.connectProvidesDragSort then
        [Event.setSetting grid.id "dragSort" (optGet st.options "dragSort")] else []) ++
      (if a.connectProvidesDragContainer then
        [Event.setSetting grid.id "dragContainer" (optGet st.options "dragContainer")]
       else [])) ++ writeChangedKeys grid.id a st keys, (!e.isLifecycle) = true := by
    intro e he
    rcases List.mem_append.mp he with h | h
    · rcases List.mem_append.mp h with h | h
      · split_ifs at h
        · simp at h; subst h; rfl
        · simp at h
      · split_ifs at h
        · simp at h; subst h; rfl
        · simp at h
    · exact writeChangedKeys_not_lifecycle _ _ _ _ e h
  have hd : ∀ e ∈ (if "dragEnabled" ∈ keys then
        (Event.getItems grid.id ::
          (toggleDrag grid.id (optGet st.options "dragEnabled").truthy
            ((w.engine grid.id).getItems.getD []) 0).1,
         (toggleDrag grid.id (optGet st.options "dragEnabled").truthy
            ((w.engine grid.id).getItems.getD []) 0).2)
      else (([] : List Event), false)).1, (!e.isLifecycle) = true := by
    intro e he
    split_ifs at he
    · rcases List.mem_cons.mp he with h | h
      · subst h; rfl
      · exact toggleDrag_not_lifecycle _ _ _ _ e h
    · simp at he
  have hr : ∀ e ∈ (if (w.engine grid.id).hasRefreshItems then
        [Event.refreshItems grid.id (_getItemElements w st)] else []),
      (!e.isLifecycle) = true := by
    intro e he
    split_ifs at he
    · simp at he; subst he; rfl
    · simp at he
  have hl : ∀ e ∈ (if (w.engine grid.id).hasLayout then [Event.layout grid.id] else []),
      (!e.isLifecycle) = true := by
    intro e he
    split_ifs at he
    · simp at he; subst he; rfl
    · simp at he
  unfold livePatchCalls
  exact patch_shape _ _ _ _ _ _ _ _ hw hd hr hl

theorem livePatchCalls_ok (w : World) (grid : Grid) (a : Adapter) (st : Snapshot)
    (keys : List String) (hp : (w.engine grid.id).patchable = true) :
    (livePatchCalls w grid a st keys).2 = true := by
  simp only [EngineBeh.patchable, Bool.and_eq_true, Bool.not_eq_true'] at hp
  obtain ⟨⟨⟨-, hr⟩, hl⟩, hq⟩ := hp
  have hd : ∀ en, (toggleDrag grid.id en ((w.engine grid.id).getItems.getD []) 0).2 = false :=
    fun en => toggleDrag_quiet _ _ _ _ hq
  have hdrag : ∀ x : List Event,
      (if "dragEnabled" ∈ keys then (x, false) else (([] : List Event), false)).2 = false := by
    intro x
    split_ifs <;> rfl
  unfold livePatchCalls
  dsimp only
  simp [hd, hr, hl, hdrag]

/-- What `_applyLive` guarantees however it ends: the adapter keeps its engine instance, the
registry is untouched, and no call constructs or destroys an instance. -/
theorem applyLive_post (w : World) (s : Sys) (st : Snapshot) (keys : List String) (g : Grid)
    (hm : s.self.muuri = some g) :
    (_applyLive w s st keys).1.self.muuri = some g ∧
    (_applyLive w s st keys).1.self.lastState = s.self.lastState ∧
    (_applyLive w s st keys).1.self.syncInProgress = s.self.syncInProgress ∧
    (_applyLive w s st keys).1.registry = s.registry ∧
    (_applyLive w s st keys).1.nextId = s.nextId ∧
    (_applyLive w s st keys).2.1 = policySnapshot w st ∧
    Appends (fun e => !e.isLifecycle) (s.trace ++ [Event.applyLive g.id])
      (_applyLive w s st keys).1.trace := by
  unfold _applyLive
  simp only [hm, policy_snapshot_eq]
  split_ifs
  · simp only [policy_muuri, policy_lastState, policy_syncInProgress, ensureContainer_muuri,
      ensureContainer_lastState, ensureContainer_syncInProgress, hm, true_and]
    exact Appends.refl _ _
  · simp only [policy_muuri, policy_lastState, policy_syncInProgress, ensureContainer_muuri,
      ensureContainer_lastState, ensureContainer_syncInProgress, hm, true_and]
    exact Appends.append _ _ (livePatchCalls_not_lifecycle _ _ _ _ _)
  · simp only [policy_muuri, policy_lastState, policy_syncInProgress, ensureContainer_muuri,
      ensureContainer_lastState, ensureContainer_syncInProgress, applyFiltering_muuri,
      applyFiltering_lastState, applyFiltering_syncInProgress, applyFiltering_registry,
      applyFiltering_nextId, hm, true_and]
    exact (Appends.append _ _ (livePatchCalls_not_lifecycle _ _ _ _ _)).trans
      (Appends.mono upkeep_not_lifecycle (applyFiltering_appends _ _ _))

theorem applyLive_ok (w : World) (s : Sys) (st : Snapshot) (keys : List String) (g : Grid)
    (hm : s.self.muuri = some g) (hp : (w.engine g.id).patchable = true) :
    (_applyLive w s st keys).2.2 = true := by
  have hs : (w.engine g.id).hasSettings = true := by
    simp only [EngineBeh.patchable, Bool.and_eq_true] at hp
    exact hp.1.1.1
  unfold _applyLive
  simp [hm, hs, livePatchCalls_ok w g _ _ keys hp]

/-! ## Recreate policy -/

theorem recreateIfChanged_itemsSelector : recreateIfChanged "itemsSelector" = true := by decide

theorem needsRecreate_of_selector (prev next : Snapshot)
    (h : prev.itemsSelector ≠ next.itemsSelector) :
    _needsRecreate prev next (changedKeysOf prev next) = true := by
  unfold _needsRecreate changedKeysOf
  split_ifs
  · rfl
  · simp [h, recreateIfChanged_itemsSelector]

theorem needsRecreate_of_live_keys (prev next : Snapshot)
    (hmodule : prev.moduleTitle = next.moduleTitle)
    (hselector : prev.itemsSelector = next.itemsSelector)
    (hkeys : ∀ k, recreateIfChanged k = true →
      stableSig (optGet prev.options k) = stableSig (optGet next.options k)) :
    _needsRecreate prev next (changedKeysOf prev next) = false := by
  unfold _needsRecreate changedKeysOf
  simp only [hmodule, hselector, ne_eq, not_true_eq_false, if_false, List.append_nil]
  rw [List.any_eq_false]
  intro k hk
  have hdiff := (List.mem_filter.mp hk).2
  intro hr
  simp [hkeys k hr] at hdiff

/-! ## Accepting a snapshot -/

/-- What the pair `this._lastState = next; this._ensureMuuri(next);` guarantees however it
ends. -/
theorem acceptAndEnsure_post (w : World) (s : Sys) (next : Snapshot) :
    (∃ L, (acceptAndEnsure w s next).1.self.lastState = some L ∧ L.sig = next.sig) ∧
    (acceptAndEnsure w s next).1.self.syncInProgress = s.self.syncInProgress ∧
    ∀ g, (acceptAndEnsure w s next).1.self.muuri = some g →
      s.self.muuri = some g ∨ (g.twHost ≠ none ∧ g.twHost = w.parentDomNode) := by
  obtain ⟨h1, -, h3, h4⟩ := ensureMuuri_post w
    { s with self := { s.self with lastState := some next } } next
  unfold acceptAndEnsure
  exact ⟨⟨_, rfl, h1⟩, h3, h4⟩

theorem acceptAndEnsure_creates (w : World) (s : Sys) (next : Snapshot) (host : Elem)
    (ctor : Ctor) (hm : s.self.muuri = none) (hh : w.parentDomNode = some host)
    (hc : w.getMuuriCtor next.moduleTitle = some ctor)
    (hk : ∀ c o i, w.constructs ctor c o i = true) :
    (acceptAndEnsure w s next).2 = Completion.normal ∧
    (acceptAndEnsure w s next).1.nextId = s.nextId + 1 ∧
    (acceptAndEnsure w s next).1.self.lastState = some (policySnapshot w next) ∧
    ∃ g evs, (acceptAndEnsure w s next).1.self.muuri = some g ∧ g.id = s.nextId ∧
      g.twHost = some host ∧
      (acceptAndEnsure w s next).1.registry = addToRegistry g s.registry ∧
      (acceptAndEnsure w s next).1.trace
        = s.trace ++ Event.construct ctor host (policySnapshot w next).options
            (_getItemElements w (policySnapshot w next)) :: evs ∧
      ∀ e ∈ evs, e.isUpkeep = true := by
  obtain ⟨h0, h1, h2, h3⟩ := ensureMuuri_creates w
    { s with self := { s.self with lastState := some next } } next host ctor hm hh hc hk
  unfold acceptAndEnsure
  exact ⟨h1, h2, by simp [h0], h3⟩

/-! ## The synchronization pass -/

theorem destroyIfHostChanged_post (hostNow : Elem) (s : Sys) :
    (destroyIfHostChanged hostNow s).self.lastState = s.self.lastState ∧
    (destroyIfHostChanged hostNow s).self.syncInProgress = s.self.syncInProgress ∧
    ∀ g, (destroyIfHostChanged hostNow s).self.muuri = some g →
      s.self.muuri = some g ∧ (g.twHost = none ∨ g.twHost = some hostNow) := by
  unfold destroyIfHostChanged
  cases hm : s.self.muuri with
  | none => simp [hm]
  | some g0 =>
    cases ht : g0.twHost with
    | none =>
      simp only [ht, hm]
      exact ⟨trivial, trivial, fun g hg => ⟨hg, Or.inl (by simp at hg; rw [← hg, ht])⟩⟩
    | some h =>
      by_cases hne : hostNow = h
      · simp only [ht, hm, hne, ne_eq, not_true_eq_false, if_false]
        exact ⟨trivial, trivial, fun g hg => ⟨hg, Or.inr (by simp at hg; rw [← hg, ht])⟩⟩
      · simp only [ht, ne_eq, hne, not_false_eq_true, if_true, destroyMuuri_of_some s g0 hm]
        simp

theorem destroyIfHostChanged_same (hostNow : Elem) (s : Sys)
    (h : ∀ g, s.self.muuri = some g → g.twHost = none ∨ g.twHost = some hostNow) :
    destroyIfHostChanged hostNow s = s := by
  unfold destroyIfHostChanged
  cases hm : s.self.muuri with
  | none => rfl
  | some g0 =>
    rcases h g0 hm with ht | ht
    · simp [ht]
    · simp [ht]

/-- The fast path: with an unchanged signature, `reconcile` only makes upkeep calls. -/
theorem reconcile_same (w : World) (s : Sys) (last next : Snapshot)
    (hsig : last.sig = next.sig) :
    (reconcile w s last next).2 = Completion.normal ∧
    (reconcile w s last next).1.self.muuri = s.self.muuri ∧
    (reconcile w s last next).1.registry = s.registry ∧
    (reconcile w s last next).1.nextId = s.nextId ∧
    (reconcile w s last next).1.self.lastState = s.self.lastState ∧
    (reconcile w s last next).1.self.syncInProgress = s.self.syncInProgress ∧
    Appends Event.isUpkeep s.trace (reconcile w s last next).1.trace := by
  unfold reconcile
  simp only [hsig, if_true]
  cases hm : s.self.muuri with
  | none => exact ⟨rfl, hm, rfl, rfl, rfl, rfl, Appends.refl _ _⟩
  | some g =>
    refine ⟨rfl, by simp [hm], by simp, by simp, by simp, by simp, ?_⟩
    exact (Appends.append _ _ (refreshItemsLayout_upkeep w g _)).trans
      (applyFiltering_appends _ _ _)

/-- What `reconcile` guarantees however it ends. -/
theorem reconcile_post (w : World) (s : Sys) (last next : Snapshot)
    (hlast : s.self.lastState = some last) :
    (∃ L, (reconcile w s last next).1.self.lastState = some L ∧ L.sig = next.sig) ∧
    (reconcile w s last next).1.self.syncInProgress = s.self.syncInProgress ∧
    ∀ g, (reconcile w s last next).1.self.muuri = some g →
      s.self.muuri = some g ∨ (g.twHost ≠ none ∧ g.twHost = w.parentDomNode) := by
  by_cases hsig : last.sig = next.sig
  · obtain ⟨-, h2, -, -, h5, h6, -⟩ := reconcile_same w s last next hsig
    exact ⟨⟨last, by rw [h5, hlast], hsig⟩, h6, fun g hg => Or.inl (by rw [← h2]; exact hg)⟩
  · unfold reconcile
    simp only [hsig, if_false]
    cases hm : s.self.muuri with
    | none =>
      have h := acceptAndEnsure_post w s next
      simp only [hm] at h
      exact h
    | some g0 =>
      dsimp only
      split_ifs with hr hok
      · obtain ⟨h1, -, h3, -, -, h6, -⟩ :=
          applyLive_post w s next (changedKeysOf last next) g0 hm
        refine ⟨⟨_, rfl, by rw [h6]; simp⟩, h3, fun g hg => Or.inl ?_⟩
        simp only at hg
        rw [← hg, h1]
      · obtain ⟨h1, -, h3, -, -, h6, -⟩ :=
          applyLive_post w s next (changedKeysOf last next) g0 hm
        obtain ⟨⟨L, hL, hLs⟩, hs, hg⟩ := acceptAndEnsure_post w
          (_destroyMuuri (_applyLive w s next (changedKeysOf last next)).1)
          (_applyLive w s next (changedKeysOf last next)).2.1
        refine ⟨⟨L, hL, by rw [hLs, h6]; simp⟩, ?_, fun g hgg => ?_⟩
        · rw [hs, destroyMuuri_of_some _ g0 h1]
          exact h3
        · rcases hg g hgg with h | h
          · rw [destroyMuuri_of_some _ g0 h1] at h
            simp at h
          · exact Or.inr h
      · obtain ⟨hL, hs, hg⟩ := acceptAndEnsure_post w (_destroyMuuri s) next
        refine ⟨hL, ?_, fun g hgg => ?_⟩
        · rw [hs, destroyMuuri_of_some _ g0 hm]
        · rcases hg g hgg with h | h
          · rw [destroyMuuri_of_some _ g0 hm] at h
            simp at h
          · exact Or.inr h


theorem syncTry_of_no_host (w : World) (s : Sys) (h : w.parentDomNode = none) :
    syncTry w s = ({ s with self := (_readStateFromAttributes w s.self).1 }, Completion.normal) := by
  simp [syncTry, _getHostDomNode, h]

/-- What the `try` block guarantees however it ends, when the host resolves: the adapter's
last snapshot carries the signature just read, and an engine instance it owns is tagged with
the current host (or carries no host tag). -/
theorem syncTry_post (w : World) (s : Sys) (host : Elem) (hh : w.parentDomNode = some host) :
    (∃ L, (syncTry w s).1.self.lastState = some L ∧
      L.sig = (_readStateFromAttributes w s.self).2.sig) ∧
    (syncTry w s).1.self.syncInProgress = s.self.syncInProgress ∧
    ∀ g, (syncTry w s).1.self.muuri = some g → g.twHost = none ∨ g.twHost = some host := by
  obtain ⟨d1, d2, d3⟩ := destroyIfHostChanged_post host
    { s with self := (_readStateFromAttributes w s.self).1 }
  unfold syncTry
  simp only [_getHostDomNode, hh, policy_lastState, ensureContainer_lastState,
    policy_snapshot_eq]
  cases hl : (destroyIfHostChanged host
      { s with self := (_readStateFromAttributes w s.self).1 }).self.lastState with
  | none =>
    obtain ⟨⟨L, hL, hLs⟩, hs, hg⟩ := acceptAndEnsure_post w
      { destroyIfHostChanged host { s with self := (_readStateFromAttributes w s.self).1 } with
        self := (_applyConnectionPolicy w
          (_ensureContainer w (destroyIfHostChanged host
            { s with self := (_readStateFromAttributes w s.self).1 }).self
            (_readStateFromAttributes w s.self).2).1 (_readStateFromAttributes w s.self).2).1 }
      (policySnapshot w (_readStateFromAttributes w s.self).2)
    refine ⟨⟨L, hL, by rw [hLs]; simp⟩, ?_, fun g hgg => ?_⟩
    · rw [hs]; simpa using d2
    · rcases hg g hgg with h | h
      · exact (d3 g (by simpa using h)).2
      · exact Or.inr (by rw [h.2, hh])
  | some last =>
    obtain ⟨⟨L, hL, hLs⟩, hs, hg⟩ := reconcile_post w
      { destroyIfHostChanged host { s with self := (_readStateFromAttributes w s.self).1 } with
        self := (_applyConnectionPolicy w
          (_ensureContainer w (destroyIfHostChanged host
            { s with self := (_readStateFromAttributes w s.self).1 }).self
            (_readStateFromAttributes w s.self).2).1 (_readStateFromAttributes w s.self).2).1 }
      last (policySnapshot w (_readStateFromAttributes w s.self).2) (by simpa using hl)
    refine ⟨⟨L, hL, by rw [hLs]; simp⟩, ?_, fun g hgg => ?_⟩
    · rw [hs]; simpa using d2
    · rcases hg g hgg with h | h
      · exact (d3 g (by simpa using h)).2
      · exact Or.inr (by rw [h.2, hh])

/-- The fast path of the `try` block: same host, same signature. -/
theorem syncTry_same (w : World) (s : Sys) (host : Elem) (last : Snapshot)
    (hh : w.parentDomNode = some host) (hlast : s.self.lastState = some last)
    (hsig : last.sig = (_readStateFromAttributes w s.self).2.sig)
    (htag : ∀ g, s.self.muuri = some g → g.twHost = none ∨ g.twHost = some host) :
    (syncTry w s).2 = Completion.normal ∧
    (syncTry w s).1.self.muuri = s.self.muuri ∧
    (syncTry w s).1.registry = s.registry ∧
    (syncTry w s).1.nextId = s.nextId ∧
    (syncTry w s).1.self.syncInProgress = s.self.syncInProgress ∧
    Appends Event.isUpkeep s.trace (syncTry w s).1.trace := by
  have hd : destroyIfHostChanged host { s with self := (_readStateFromAttributes w s.self).1 }
      = { s with self := (_readStateFromAttributes w s.self).1 } :=
    destroyIfHostChanged_same host _ (by simpa using htag)
  unfold syncTry
  simp only [_getHostDomNode, hh, hd, policy_lastState, ensureContainer_lastState,
    readState_lastState, hlast, policy_snapshot_eq]
  obtain ⟨h1, h2, h3, h4, -, h6, h7⟩ := reconcile_same w
    { s with self := (_applyConnectionPolicy w
        (_ensureContainer w (_readStateFromAttributes w s.self).1
          (_readStateFromAttributes w s.self).2).1 (_readStateFromAttributes w s.self).2).1 }
    last (policySnapshot w (_readStateFromAttributes w s.self).2) (by simpa using hsig)
  exact ⟨h1, by simpa using h2, h3, h4, by simpa using h6, h7⟩


theorem sync_of_idle (w : World) (s : Sys) (h : s.self.syncInProgress = false) :
    _syncFromAttributes w s =
      ({ (syncTry w { s with self := { s.self with syncInProgress := true } }).1 with
         self := { (syncTry w { s with self := { s.self with syncInProgress := true } }).1.self with
                   syncInProgress := false } },
       (syncTry w { s with self := { s.self with syncInProgress := true } }).2) := by
  simp [_syncFromAttributes, h]

theorem sync_of_busy (w : World) (s : Sys) (h : s.self.syncInProgress = true) :
    _syncFromAttributes w s = (s, Completion.normal) := by
  simp [_syncFromAttributes, h]

/-! ## The invariant -/

theorem policySnapshot_sigCovers (w : World) (st : Snapshot) (h : st.SigCovers) :
    (policySnapshot w st).SigCovers := by
  unfold policySnapshot _applyConnectionPolicy
  dsimp only
  split_ifs <;> exact h

theorem Sys.WF.of_frame {s s' : Sys} (h : s.WF) (hr : s'.registry = s.registry)
    (hn : s'.nextId = s.nextId) (hm : s'.self.muuri = s.self.muuri)
    (hl : s'.self.lastState = s.self.lastState) : s'.WF := by
  obtain ⟨h1, h2, h3, h4⟩ := h
  exact ⟨hr ▸ h1, by rw [hr, hn]; exact h2, by rw [hr, hm]; exact h3, by rw [hl]; exact h4⟩

theorem Sys.WF.accept {s : Sys} (h : s.WF) (L : Snapshot) (hL : L.SigCovers) :
    ({ s with self := { s.self with lastState := some L } } : Sys).WF := by
  obtain ⟨h1, h2, h3, -⟩ := h
  refine ⟨h1, h2, h3, fun L' hL' => ?_⟩
  simp only [Option.some.injEq] at hL'
  exact hL' ▸ hL

theorem destroyMuuri_wf (s : Sys) (h : s.WF) : (_destroyMuuri s).WF := by
  obtain ⟨h1, h2, h3, h4⟩ := h
  cases hm : s.self.muuri with
  | none =>
    have e : _destroyMuuri s = { s with self := { s.self with muuriCtor := none } } := by
      simp [_destroyMuuri, hm]
    rw [e]
    exact ⟨h1, h2, by simpa using h3, h4⟩
  | some g =>
    rw [destroyMuuri_of_some s g hm]
    refine ⟨(removeFromRegistry_nodup g s.registry h1).1, fun x hx => ?_, by simp, h4⟩
    exact h2 x (List.mem_of_mem_erase hx)

theorem destroyIfHostChanged_wf (hostNow : Elem) (s : Sys) (h : s.WF) :
    (destroyIfHostChanged hostNow s).WF := by
  unfold destroyIfHostChanged
  split
  · split
    · split_ifs
      · exact destroyMuuri_wf s h
      · exact h
    · exact h
  · exact h

theorem constructMuuri_wf (w : World) (s : Sys) (st : Snapshot) (host container : Elem)
    (ctor : Ctor) (h : s.WF) :
    (constructMuuri w s st host container ctor).1.WF := by
  obtain ⟨h1, h2, h3, h4⟩ := h
  unfold constructMuuri
  dsimp only
  split_ifs with hk
  · exact ⟨h1, h2, h3, h4⟩
  · refine ⟨?_, ?_, ?_, ?_⟩
    · simpa using addToRegistry_nodup _ _ h1
    · intro x hx
      simp only [applyFiltering_registry, applyFiltering_nextId] at hx ⊢
      rcases (mem_addToRegistry_iff _ _ _).mp hx with e | e
      · rw [e]
        simp [newGrid]
      · exact Nat.lt_succ_of_lt (h2 x e)
    · intro x hx
      simp only [installWatcher_muuri, applyFiltering_muuri, Option.some.injEq] at hx
      simp only [applyFiltering_registry]
      rw [← hx]
      exact mem_addToRegistry _ _
    · simpa using h4

theorem ensureMuuri_state (w : World) (s : Sys) (st : Snapshot) :
    (_ensureMuuri w s st).2.1 = st ∨ (_ensureMuuri w s st).2.1 = policySnapshot w st := by
  unfold _ensureMuuri
  split
  · exact Or.inl rfl
  · split
    · exact Or.inl rfl
    · dsimp only
      split
      · exact Or.inl rfl
      · split
        · exact Or.inr (policy_snapshot_eq _ _ _)
        · exact Or.inr (policy_snapshot_eq _ _ _)

theorem ensureMuuri_wf (w : World) (s : Sys) (st : Snapshot) (h : s.WF) :
    (_ensureMuuri w s st).1.WF := by
  cases hm : s.self.muuri with
  | some g0 =>
    rw [ensureMuuri_of_some w s st g0 hm]
    exact h
  | none =>
    cases hh : w.parentDomNode with
    | none =>
      rw [ensureMuuri_of_no_host w s st hh]
      exact h
    | some host =>
      unfold _ensureMuuri
      simp only [hm, _getHostDomNode, hh, ensureContainer_snd]
      cases hc : w.getMuuriCtor
          (_applyConnectionPolicy w (_ensureContainer w s.self st).1 st).2.moduleTitle with
      | none =>
        exact h.of_frame rfl rfl (by simp [hm]) (by simp)
      | some ctor =>
        dsimp only
        exact constructMuuri_wf w _ _ host host ctor
          (h.of_frame rfl rfl (by simp [hm]) (by simp))

theorem acceptAndEnsure_wf (w : World) (s : Sys) (next : Snapshot) (h : s.WF)
    (hnext : next.SigCovers) : (acceptAndEnsure w s next).1.WF := by
  have h1 := ensureMuuri_wf w { s with self := { s.self with lastState := some next } } next
    (h.accept next hnext)
  unfold acceptAndEnsure
  refine (h1.accept _ ?_)
  rcases ensureMuuri_state w { s with self := { s.self with lastState := some next } } next
    with e | e
  · rw [e]; exact hnext
  · rw [e]; exact policySnapshot_sigCovers w next hnext

theorem reconcile_wf (w : World) (s : Sys) (last next : Snapshot) (h : s.WF)
    (hnext : next.SigCovers) : (reconcile w s last next).1.WF := by
  by_cases hsig : last.sig = next.sig
  · obtain ⟨-, h2, h3, h4, h5, -, -⟩ := reconcile_same w s last next hsig
    exact h.of_frame h3 h4 h2 h5
  · unfold reconcile
    simp only [hsig, if_false]
    cases hm : s.self.muuri with
    | none => exact acceptAndEnsure_wf w s next h hnext
    | some g0 =>
      obtain ⟨a1, a2, -, a4, a5, a6, -⟩ :=
        applyLive_post w s next (changedKeysOf last next) g0 hm
      have hlive : (_applyLive w s next (changedKeysOf last next)).1.WF :=
        h.of_frame a4 a5 (by rw [a1, hm]) a2
      have hst : (_applyLive w s next (changedKeysOf last next)).2.1.SigCovers := by
        rw [a6]
        exact policySnapshot_sigCovers w next hnext
      dsimp only
      split_ifs
      · exact hlive.accept _ hst
      · exact acceptAndEnsure_wf w _ _ (destroyMuuri_wf _ hlive) hst
      · exact acceptAndEnsure_wf w _ _ (destroyMuuri_wf _ h) hnext

theorem syncTry_wf (w : World) (s : Sys) (h : s.WF) : (syncTry w s).1.WF := by
  have h0 : ({ s with self := (_readStateFromAttributes w s.self).1 } : Sys).WF :=
    h.of_frame rfl rfl (by simp) (by simp)
  cases hh : w.parentDomNode with
  | none =>
    rw [syncTry_of_no_host w s hh]
    exact h0
  | some host =>
    have h1 := destroyIfHostChanged_wf host _ h0
    have hnext : (policySnapshot w (_readStateFromAttributes w s.self).2).SigCovers :=
      policySnapshot_sigCovers w _ (readState_sigCovers w s.self)
    unfold syncTry
    simp only [_getHostDomNode, hh, policy_snapshot_eq]
    split
    · exact acceptAndEnsure_wf w _ _ (h1.of_frame rfl rfl (by simp) (by simp)) hnext
    · exact reconcile_wf w _ _ _ (h1.of_frame rfl rfl (by simp) (by simp)) hnext

/-- The invariant holds for a freshly constructed adapter with an empty registry. -/
theorem init_wf : Sys.init.WF := by
  refine ⟨by simp [Sys.init], by simp [Sys.init], by simp [Sys.init, Adapter.init], ?_⟩
  simp [Sys.init, Adapter.init]

/-- A synchronization pass keeps the invariant, however it ends. -/
theorem sync_wf (w : World) (s : Sys) (h : s.WF) : (_syncFromAttributes w s).1.WF := by
  cases hflag : s.self.syncInProgress with
  | true =>
    rw [sync_of_busy w s hflag]
    exact h
  | false =>
    rw [sync_of_idle w s hflag]
    have h1 : ({ s with self := { s.self with syncInProgress := true } } : Sys).WF :=
      h.of_frame rfl rfl rfl rfl
    exact (syncTry_wf w _ h1).of_frame rfl rfl rfl rfl

/-- The invariant, an instance: it holds after the first pass on the story river. -/
theorem sync_wf_river : Sys.running.WF := sync_wf World.river Sys.init init_wf

/-! ## The claims on the synchronization pass -/

/-- C5. For two snapshots with equal signatures read under the same host, the pass on the
second one changes no option: the engine instance is neither destroyed nor created (same
instance, same registry, no identity allocated), and every call it makes into the engine is
an item refresh, a layout or a filter call, so no key of the engine's settings is written. -/
theorem sync_same_signature_only_upkeep (w1 w2 : World) (s : Sys)
    (hhost : w2.parentDomNode = w1.parentDomNode)
    (hsig : (_readStateFromAttributes w2 (_syncFromAttributes w1 s).1.self).2.sig
      = (_readStateFromAttributes w1 s.self).2.sig) :
    (_syncFromAttributes w2 (_syncFromAttributes w1 s).1).2 = Completion.normal ∧
    (_syncFromAttributes w2 (_syncFromAttributes w1 s).1).1.self.muuri
      = (_syncFromAttributes w1 s).1.self.muuri ∧
    (_syncFromAttributes w2 (_syncFromAttributes w1 s).1).1.registry
      = (_syncFromAttributes w1 s).1.registry ∧
    (_syncFromAttributes w2 (_syncFromAttributes w1 s).1).1.nextId
      = (_syncFromAttributes w1 s).1.nextId ∧
    ∃ evs, (_syncFromAttributes w2 (_syncFromAttributes w1 s).1).1.trace
        = (_syncFromAttributes w1 s).1.trace ++ evs ∧
      ∀ e ∈ evs, e.isUpkeep = true := by
  cases hflag : s.self.syncInProgress with
  | true =>
    have h1 : _syncFromAttributes w1 s = (s, Completion.normal) := sync_of_busy w1 s hflag
    rw [h1]
    rw [sync_of_busy w2 s hflag]
    exact ⟨rfl, rfl, rfl, rfl, [], by simp, by simp⟩
  | false =>
    have hidle : (_syncFromAttributes w1 s).1.self.syncInProgress = false := by
      rw [sync_of_idle w1 s hflag]
    rw [sync_of_idle w2 _ hidle]
    cases hh : w1.parentDomNode with
    | none =>
      rw [syncTry_of_no_host w2 _ (by rw [hhost, hh])]
      exact ⟨rfl, by simp, rfl, rfl, [], by simp, by simp⟩
    | some host =>
      obtain ⟨⟨L, hL, hLs⟩, -, htag⟩ := syncTry_post w1
        { s with self := { s.self with syncInProgress := true } } host hh
      have hlast : (_syncFromAttributes w1 s).1.self.lastState = some L := by
        rw [sync_of_idle w1 s hflag]
        exact hL
      have htag' : ∀ g, (_syncFromAttributes w1 s).1.self.muuri = some g →
          g.twHost = none ∨ g.twHost = some host := by
        rw [sync_of_idle w1 s hflag]
        exact htag
      obtain ⟨h1, h2, h3, h4, -, h6⟩ := syncTry_same w2
        { (_syncFromAttributes w1 s).1 with
          self := { (_syncFromAttributes w1 s).1.self with syncInProgress := true } }
        host L (by rw [hhost, hh]) hlast
        ((hLs.trans (congrArg Snapshot.sig (readState_flag w1 s.self true))).trans
          (hsig.symm.trans (congrArg Snapshot.sig (readState_flag w2 _ true).symm))) htag'
      exact ⟨h1, h2, h3, h4, h6⟩

/-- C5, an instance: a second pass on the unchanged story river keeps the instance 100 and
only refreshes, lays out and filters. -/
theorem sync_same_signature_only_upkeep_river :
    (_syncFromAttributes World.river (_syncFromAttributes World.river Sys.init).1).1.self.muuri
      = some Grid.first ∧
    (_syncFromAttributes World.river (_syncFromAttributes World.river Sys.init).1).1.trace
      = (_syncFromAttributes World.river Sys.init).1.trace ++
        [Event.refreshItems 100 [10, 11, 12], Event.layout 100,
         Event.filter 100 FilterPred.acceptAll] ∧
    (_syncFromAttributes World.river (_syncFromAttributes World.river Sys.init).1).1.registry
      = (_syncFromAttributes World.river Sys.init).1.registry :=
  ⟨by decide, by decide,
   (sync_same_signature_only_upkeep World.river World.river Sys.init rfl (by decide)).2.2.1⟩


/-! ## Recreation and live patch -/

theorem reconcile_absent (w : World) (s : Sys) (last next : Snapshot)
    (hm : s.self.muuri = none) (hsig : last.sig ≠ next.sig) :
    reconcile w s last next = acceptAndEnsure w s next := by
  simp [reconcile, hsig, hm]

theorem reconcile_recreate (w : World) (s : Sys) (last next : Snapshot) (g : Grid)
    (hm : s.self.muuri = some g) (hsig : last.sig ≠ next.sig)
    (hneeds : _needsRecreate last next (changedKeysOf last next) = true) :
    reconcile w s last next = acceptAndEnsure w (_destroyMuuri s) next := by
  simp [reconcile, hsig, hm, hneeds]

theorem reconcile_live (w : World) (s : Sys) (last next : Snapshot) (g : Grid)
    (hm : s.self.muuri = some g) (hsig : last.sig ≠ next.sig)
    (hneeds : _needsRecreate last next (changedKeysOf last next) = false)
    (hp : (w.engine g.id).patchable = true) :
    (reconcile w s last next).2 = Completion.normal ∧
    (reconcile w s last next).1.self.muuri = some g ∧
    (reconcile w s last next).1.registry = s.registry ∧
    (reconcile w s last next).1.nextId = s.nextId ∧
    Appends (fun e => !e.isLifecycle) (s.trace ++ [Event.applyLive g.id])
      (reconcile w s last next).1.trace := by
  obtain ⟨h1, -, -, h4, h5, -, h7⟩ := applyLive_post w s next (changedKeysOf last next) g hm
  have hok := applyLive_ok w s next (changedKeysOf last next) g hm hp
  unfold reconcile
  simp only [hsig, if_false, hm, hneeds, if_true, hok]
  exact ⟨trivial, h1, h4, h5, h7⟩

theorem destroyIfHostChanged_changed (hostNow : Elem) (s : Sys) (g : Grid)
    (hm : s.self.muuri = some g) (h : ¬(g.twHost = none ∨ g.twHost = some hostNow)) :
    destroyIfHostChanged hostNow s = _destroyMuuri s := by
  unfold destroyIfHostChanged
  simp only [hm]
  cases ht : g.twHost with
  | none => exact absurd (Or.inl ht) h
  | some h' =>
    have hne : hostNow ≠ h' := fun e => h (Or.inr (by rw [ht, e]))
    simp [hne]

/-- The `try` block when the item selector has changed, on an adapter that owns an engine
instance and with a host that resolves: the instance is destroyed and unregistered, and the
new snapshot is accepted by `acceptAndEnsure` on an adapter without instance. -/
theorem syncTry_selector_change_shape (w : World) (s : Sys) (g : Grid) (last : Snapshot)
    (host : Elem)
    (hself : s.self.muuri = some g) (hlast : s.self.lastState = some last)
    (hcovers : last.SigCovers) (hhost : w.parentDomNode = some host)
    (hselector : (_readStateFromAttributes w s.self).2.itemsSelector ≠ last.itemsSelector) :
    ∃ X, syncTry w s
        = acceptAndEnsure w X (policySnapshot w (_readStateFromAttributes w s.self).2) ∧
      X.self.muuri = none ∧ X.registry = removeFromRegistry g s.registry ∧
      X.trace = s.trace ++ [Event.destroy g.id] ∧ X.nextId = s.nextId := by
  have hsig : last.sig ≠ (policySnapshot w (_readStateFromAttributes w s.self).2).sig := by
    intro h
    apply hselector
    have h1 := (readState_sigCovers w s.self).2.1
    rw [← h1, ← hcovers.2.1, h]
    simp
  have hneeds : _needsRecreate last (policySnapshot w (_readStateFromAttributes w s.self).2)
      (changedKeysOf last (policySnapshot w (_readStateFromAttributes w s.self).2)) = true :=
    needsRecreate_of_selector _ _ (by simpa using fun h => hselector h.symm)
  unfold syncTry
  simp only [_getHostDomNode, hhost, policy_lastState, ensureContainer_lastState,
    policy_snapshot_eq]
  by_cases hkeep : g.twHost = none ∨ g.twHost = some host
  · have hd : destroyIfHostChanged host { s with self := (_readStateFromAttributes w s.self).1 }
        = { s with self := (_readStateFromAttributes w s.self).1 } :=
      destroyIfHostChanged_same host _ (by
        intro g0 hg0
        simp only [readState_muuri, hself, Option.some.injEq] at hg0
        exact hg0 ▸ hkeep)
    simp only [hd, readState_lastState, hlast]
    rw [reconcile_recreate w _ last _ g (by simp [hself]) hsig hneeds,
      destroyMuuri_of_some _ g (by simp [hself])]
    exact ⟨_, rfl, rfl, rfl, rfl, rfl⟩
  · have hd : destroyIfHostChanged host { s with self := (_readStateFromAttributes w s.self).1 }
        = _destroyMuuri { s with self := (_readStateFromAttributes w s.self).1 } :=
      destroyIfHostChanged_changed host _ g (by simp [hself]) hkeep
    simp only [hd, destroyMuuri_of_some _ g
      (show ({ s with self := (_readStateFromAttributes w s.self).1 } : Sys).self.muuri = some g
        by simp [hself]), readState_lastState, hlast]
    rw [reconcile_absent w _ last _ (by simp) hsig]
    exact ⟨_, rfl, by simp, rfl, rfl, rfl⟩

theorem syncTry_selector_change (w : World) (s : Sys) (g : Grid) (last : Snapshot)
    (host : Elem) (ctor : Ctor)
    (hself : s.self.muuri = some g) (hlast : s.self.lastState = some last)
    (hcovers : last.SigCovers) (hhost : w.parentDomNode = some host)
    (hselector : (_readStateFromAttributes w s.self).2.itemsSelector ≠ last.itemsSelector)
    (hctor : w.getMuuriCtor (_readStateFromAttributes w s.self).2.moduleTitle = some ctor)
    (hconstructs : ∀ c o i, w.constructs ctor c o i = true) :
    (syncTry w s).2 = Completion.normal ∧
    ∃ g' opts items evs, (syncTry w s).1.self.muuri = some g' ∧ g'.id = s.nextId ∧
      g'.twHost = some host ∧
      (syncTry w s).1.registry = addToRegistry g' (removeFromRegistry g s.registry) ∧
      (syncTry w s).1.trace
        = s.trace ++ Event.destroy g.id :: Event.construct ctor host opts items :: evs ∧
      ∀ e ∈ evs, e.isUpkeep = true := by
  obtain ⟨X, hX, hm, hr, ht, hn⟩ :=
    syncTry_selector_change_shape w s g last host hself hlast hcovers hhost hselector
  obtain ⟨h1, -, -, g', evs, h4, h5, h6, h7, h8, h9⟩ := acceptAndEnsure_creates w X
    (policySnapshot w (_readStateFromAttributes w s.self).2) host ctor hm hhost
    (by simpa using hctor) hconstructs
  rw [hX]
  refine ⟨h1, g',
    (policySnapshot w (policySnapshot w (_readStateFromAttributes w s.self).2)).options,
    _getItemElements w (policySnapshot w (policySnapshot w (_readStateFromAttributes w s.self).2)),
    evs, h4, by rw [h5, hn], h6, by rw [h7, hr], ?_, h9⟩
  rw [h8, ht]
  simp


theorem syncTry_live (w : World) (s : Sys) (g : Grid) (last : Snapshot) (host : Elem)
    (hself : s.self.muuri = some g) (hlast : s.self.lastState = some last)
    (hhost : w.parentDomNode = some host) (htag : g.twHost = some host)
    (hsig : last.sig ≠ (_readStateFromAttributes w s.self).2.sig)
    (hmodule : last.moduleTitle = (_readStateFromAttributes w s.self).2.moduleTitle)
    (hselector : last.itemsSelector = (_readStateFromAttributes w s.self).2.itemsSelector)
    (hkeys : ∀ k, recreateIfChanged k = true →
      stableSig (optGet last.options k)
        = stableSig (optGet (policySnapshot w (_readStateFromAttributes w s.self).2).options k))
    (hp : (w.engine g.id).patchable = true) :
    (syncTry w s).2 = Completion.normal ∧
    (syncTry w s).1.self.muuri = some g ∧
    (syncTry w s).1.registry = s.registry ∧
    (syncTry w s).1.nextId = s.nextId ∧
    Appends (fun e => !e.isLifecycle) (s.trace ++ [Event.applyLive g.id])
      (syncTry w s).1.trace := by
  have hd : destroyIfHostChanged host { s with self := (_readStateFromAttributes w s.self).1 }
      = { s with self := (_readStateFromAttributes w s.self).1 } :=
    destroyIfHostChanged_same host _ (by
      intro g0 hg0
      simp only [readState_muuri, hself, Option.some.injEq] at hg0
      exact Or.inr (hg0 ▸ htag))
  have hneeds : _needsRecreate last (policySnapshot w (_readStateFromAttributes w s.self).2)
      (changedKeysOf last (policySnapshot w (_readStateFromAttributes w s.self).2)) = false :=
    needsRecreate_of_live_keys _ _ (by simpa using hmodule) (by simpa using hselector) hkeys
  unfold syncTry
  simp only [_getHostDomNode, hhost, hd, policy_lastState, ensureContainer_lastState,
    readState_lastState, hlast, policy_snapshot_eq]
  exact reconcile_live w _ last _ g (by simp [hself]) (by simpa using hsig) hneeds hp

theorem optGet_of_not_key (o : Options) (k : String) (h : ∀ p ∈ o, p.1 ≠ k) :
    optGet o k = Val.undefined := by
  induction o with
  | nil => rfl
  | cons p rest ih =>
    obtain ⟨k0, v0⟩ := p
    unfold optGet
    have h0 : k0 ≠ k := h (k0, v0) (List.mem_cons_self _ _)
    simp only [h0, if_false]
    exact ih (fun q hq => h q (List.mem_cons_of_mem _ hq))

/-- C1, the code at the failing input.  The running adapter is Active on the host element 1
and the framework replaces the host by the element 2; the configuration, and so the
signature, is unchanged, and the engine constructor resolves and returns.  The pass
destroys the old instance and then takes the unchanged-signature path, which constructs
nothing: the adapter is left without an engine instance, and the next pass leaves it so. -/
theorem sync_host_replaced_leaves_absent :
    (∀ c o i, World.hostReplaced.constructs 7 c o i = true) ∧
    Sys.running.self.muuri = some Grid.first ∧
    World.hostReplaced.parentDomNode = some 2 ∧
    (Sys.running.self.lastState.map Snapshot.sig)
      = some (_readStateFromAttributes World.hostReplaced Sys.running.self).2.sig ∧
    World.hostReplaced.getMuuriCtor
      (_readStateFromAttributes World.hostReplaced Sys.running.self).2.moduleTitle = some 7 ∧
    (_syncFromAttributes World.hostReplaced Sys.running).2 = Completion.normal ∧
    (_syncFromAttributes World.hostReplaced Sys.running).1.self.muuri = none ∧
    (_syncFromAttributes World.hostReplaced Sys.running).1.registry = [] ∧
    (_syncFromAttributes World.hostReplaced Sys.running).1.trace
      = Sys.running.trace ++ [Event.destroy 100] ∧
    (_syncFromAttributes World.hostReplaced
      (_syncFromAttributes World.hostReplaced Sys.running).1).1.self.muuri = none ∧
    (_syncFromAttributes World.hostReplaced
      (_syncFromAttributes World.hostReplaced Sys.running).1).1.trace
      = Sys.running.trace ++ [Event.destroy 100] :=
  ⟨fun _ _ _ => rfl, by decide⟩

/-- C2, the code at the failing input.  A fresh adapter synchronizes while the engine module
cannot be loaded (or while the constructor throws): it is left without instance and nothing
is registered.  The next pass reads the identical configuration, now with a module that
loads and a constructor that returns, and makes no call at all: construction is not
attempted again, and the adapter stays without instance. -/
theorem sync_after_failed_creation_does_not_retry :
    (∀ title c o i, World.river.getMuuriCtor title = some 7 ∧
      World.river.constructs 7 c o i = true) ∧
    (_syncFromAttributes World.noModule Sys.init).1.self.muuri = none ∧
    (_syncFromAttributes World.noModule Sys.init).1.registry = [] ∧
    (_syncFromAttributes World.noModule Sys.init).1.trace = [] ∧
    (_readStateFromAttributes World.river (_syncFromAttributes World.noModule Sys.init).1.self).2
      = (_readStateFromAttributes World.noModule Sys.init.self).2 ∧
    (_syncFromAttributes World.river (_syncFromAttributes World.noModule Sys.init).1).1.self.muuri
      = none ∧
    (_syncFromAttributes World.river (_syncFromAttributes World.noModule Sys.init).1).1.trace
      = [] ∧
    (_syncFromAttributes World.ctorThrows Sys.init).1.self.muuri = none ∧
    (_syncFromAttributes World.ctorThrows Sys.init).1.registry = [] ∧
    (_syncFromAttributes World.river
      (_syncFromAttributes World.ctorThrows Sys.init).1).1.self.muuri = none ∧
    (_syncFromAttributes World.river (_syncFromAttributes World.ctorThrows Sys.init).1).1.trace
      = (_syncFromAttributes World.ctorThrows Sys.init).1.trace ∧
    (_syncFromAttributes World.river Sys.init).1.self.muuri = some Grid.first :=
  ⟨fun _ _ _ _ => ⟨rfl, rfl⟩, by decide⟩

/-- C10, the code at the failing input.  A fresh adapter synchronizes on a page whose engine
constructor throws: the constructor call is the one call into the engine that is not under
`safe`, so `_syncFromAttributes` ends with the exception (after its `finally` clause has
cleared the flag) instead of returning. -/
theorem sync_constructor_exception_propagates :
    World.ctorThrows.parentDomNode = some 1 ∧
    World.ctorThrows.getMuuriCtor
      (_readStateFromAttributes World.ctorThrows Sys.init.self).2.moduleTitle = some 7 ∧
    (_syncFromAttributes World.ctorThrows Sys.init).2 = Completion.threw ∧
    (_syncFromAttributes World.ctorThrows Sys.init).1.self.syncInProgress = false ∧
    (_syncFromAttributes World.ctorThrows Sys.init).1.self.muuri = none ∧
    (_syncFromAttributes World.ctorThrows Sys.init).1.trace
      = [Event.construct 7 1 [("layoutDuration", Val.num "400")] [10, 11, 12]] := by
  decide

/-! ## Teardown and the re-entrancy guard -/

@[simp] theorem destroy_muuri (s : Sys) : (destroy s).self.muuri = none := by
  unfold destroy _destroyMuuri
  cases h : s.self.muuri <;> simp [h]

@[simp] theorem destroy_lastState (s : Sys) : (destroy s).self.lastState = none := rfl

/-- What `destroy` does to the registry and the trace. -/
theorem destroy_registry (s : Sys) :
    (∀ g, s.self.muuri = some g →
      (destroy s).registry = removeFromRegistry g s.registry ∧
      (destroy s).trace = s.trace ++ [Event.destroy g.id]) ∧
    (s.self.muuri = none → (destroy s).registry = s.registry ∧ (destroy s).trace = s.trace) := by
  unfold destroy _destroyMuuri
  cases s.self.muuri with
  | none => simp
  | some g0 => simp

/-- Without a loadable engine module `_ensureMuuri` constructs nothing. -/
theorem ensureMuuri_of_no_ctor (w : World) (s : Sys) (st : Snapshot)
    (hm : s.self.muuri = none) (hc : w.getMuuriCtor st.moduleTitle = none) :
    (_ensureMuuri w s st).1.self.muuri = none ∧
    (_ensureMuuri w s st).1.registry = s.registry ∧
    (_ensureMuuri w s st).1.trace = s.trace ∧
    (_ensureMuuri w s st).2.2 = Completion.normal := by
  unfold _ensureMuuri
  rw [hm]
  cases hh : w.parentDomNode with
  | none => simp [_getHostDomNode, hh, hm]
  | some host => simp [_getHostDomNode, hh, hm, hc]

/-- A first pass of the `try` block (no instance, no last snapshot) leaves the adapter
without an instance when the host does not resolve or the engine module does not load. -/
theorem syncTry_first_absent (w : World) (s : Sys)
    (hm : s.self.muuri = none) (hl : s.self.lastState = none)
    (h : w.parentDomNode = none ∨
      w.getMuuriCtor (_readStateFromAttributes w s.self).2.moduleTitle = none) :
    (syncTry w s).1.self.muuri = none ∧
    (syncTry w s).1.registry = s.registry ∧
    (syncTry w s).1.trace = s.trace ∧
    (syncTry w s).2 = Completion.normal := by
  cases hh : w.parentDomNode with
  | none =>
    rw [syncTry_of_no_host w s hh]
    simp [hm]
  | some host =>
    have hc : w.getMuuriCtor (_readStateFromAttributes w s.self).2.moduleTitle = none := by
      rcases h with h | h
      · rw [hh] at h; cases h
      · exact h
    have hd : destroyIfHostChanged host { s with self := (_readStateFromAttributes w s.self).1 }
        = { s with self := (_readStateFromAttributes w s.self).1 } :=
      destroyIfHostChanged_same host _ (by simp [hm])
    unfold syncTry
    simp only [_getHostDomNode, hh, hd, policy_lastState, ensureContainer_lastState,
      readState_lastState, hl]
    unfold acceptAndEnsure
    obtain ⟨e1, e2, e3, e4⟩ := ensureMuuri_of_no_ctor w
      { s with
        self := { (_applyConnectionPolicy w
          (_ensureContainer w (_readStateFromAttributes w s.self).1
            (_readStateFromAttributes w s.self).2).1 (_readStateFromAttributes w s.self).2).1 with
          lastState := some (_applyConnectionPolicy w
            (_ensureContainer w (_readStateFromAttributes w s.self).1
              (_readStateFromAttributes w s.self).2).1 (_readStateFromAttributes w s.self).2).2 } }
      (_applyConnectionPolicy w
        (_ensureContainer w (_readStateFromAttributes w s.self).1
          (_readStateFromAttributes w s.self).2).1 (_readStateFromAttributes w s.self).2).2
      (by simp [hm]) (by simpa using hc)
    exact ⟨e1, e2, e3, e4⟩

/-- The `try` block leaves the flag as it found it. -/
theorem syncTry_flag (w : World) (s : Sys) :
    (syncTry w s).1.self.syncInProgress = s.self.syncInProgress := by
  cases hh : w.parentDomNode with
  | none => rw [syncTry_of_no_host w s hh]; simp
  | some host => exact (syncTry_post w s host hh).2.1

/-! ## The claims on teardown, the signature and the guard -/

/-- C13, the code at the failing input. The host carries `muuri-fn-layout`, first naming the
module `$:/layout/a`, then the module `$:/layout/b`: the two snapshots differ in the option
`layout`, yet their signatures are equal, because the serialization leaves function-valued
members out.  The pass on the second snapshot therefore takes the equal-signature path: it
makes item refresh, layout and filter calls only, and the adapter keeps the first function
as its last accepted option. -/
theorem sig_misses_function_options :
    optGet (_readStateFromAttributes (World.layoutFn "$:/layout/a") Adapter.init).2.options
      "layout" = Val.fn "$:/layout/a" ∧
    optGet (_readStateFromAttributes (World.layoutFn "$:/layout/b") Adapter.init).2.options
      "layout" = Val.fn "$:/layout/b" ∧
    (_readStateFromAttributes (World.layoutFn "$:/layout/a") Adapter.init).2.sig
      = (_readStateFromAttributes (World.layoutFn "$:/layout/b") Adapter.init).2.sig ∧
    (newMuuriStoryView (World.layoutFn "$:/layout/a") Sys.init).1.trace
      = [Event.construct 7 1
           [("layout", Val.fn "$:/layout/a"), ("layoutDuration", Val.num "400")] [10, 11, 12],
         Event.refreshItems 100 [10, 11, 12], Event.layout 100,
         Event.filter 100 FilterPred.acceptAll] ∧
    (_syncFromAttributes (World.layoutFn "$:/layout/b")
        (newMuuriStoryView (World.layoutFn "$:/layout/a") Sys.init).1).1.self.muuri
      = some Grid.first ∧
    (_syncFromAttributes (World.layoutFn "$:/layout/b")
        (newMuuriStoryView (World.layoutFn "$:/layout/a") Sys.init).1).1.trace
      = (newMuuriStoryView (World.layoutFn "$:/layout/a") Sys.init).1.trace ++
        [Event.refreshItems 100 [10, 11, 12], Event.layout 100,
         Event.filter 100 FilterPred.acceptAll] ∧
    ((_syncFromAttributes (World.layoutFn "$:/layout/b")
        (newMuuriStoryView (World.layoutFn "$:/layout/a") Sys.init).1).1.self.lastState.map
        fun last => optGet last.options "layout") = some (Val.fn "$:/layout/a") := by
  decide

/-- C14. A call of `_syncFromAttributes` made while the flag `_syncInProgress` is set
returns at once, normally, with the whole state (adapter, registry, call trace) unchanged;
a call made while the flag is clear ends with the flag clear, however the `try` block ended;
the block itself runs with the flag set and leaves it set, so every call nested in it is
dropped.  The exception path exists: with a constructor that throws, the pass of a fresh
adapter ends with the exception and with the flag clear. -/
theorem sync_reentrancy_guard (w : World) (s : Sys) :
    _syncFromAttributes w { s with self := { s.self with syncInProgress := true } }
      = ({ s with self := { s.self with syncInProgress := true } }, Completion.normal) ∧
    (_syncFromAttributes w
      { s with self := { s.self with syncInProgress := false } }).1.self.syncInProgress
      = false ∧
    (syncTry w { s with self := { s.self with syncInProgress := true } }).1.self.syncInProgress
      = true ∧
    (_syncFromAttributes World.ctorThrows Sys.init).2 = Completion.threw ∧
    (_syncFromAttributes World.ctorThrows Sys.init).1.self.syncInProgress = false := by
  refine ⟨sync_of_busy w _ rfl, ?_, ?_, by decide, by decide⟩
  · rw [sync_of_idle w _ rfl]
  · rw [syncTry_flag]

/-! ## The precedence of the option sources -/

theorem optGet_optSet_same (o : Options) (k : String) (v : Val) :
    optGet (optSet o k v) k = v := by
  induction o with
  | nil => simp [optSet, optGet]
  | cons p rest ih =>
    obtain ⟨k0, v0⟩ := p
    by_cases h : k0 = k
    · simp [optSet, optGet, h]
    · simp [optSet, optGet, h, ih]

theorem optGet_optSet_ne (o : Options) (k k1 : String) (v : Val) (h : k1 ≠ k) :
    optGet (optSet o k1 v) k = optGet o k := by
  induction o with
  | nil => simp [optSet, optGet, h]
  | cons p rest ih =>
    obtain ⟨k0, v0⟩ := p
    by_cases h0 : k0 = k1
    · subst h0
      simp [optSet, optGet, h]
    · by_cases h1 : k0 = k
      · subst h1
        simp [optSet, optGet, h0]
      · simp [optSet, optGet, h0, h1, ih]

/-- An attribute name passes the test for the prefix `p` and slices to `k` exactly when it
is `p` followed by `k`. -/
theorem startsWith_sliceFrom_iff (p k n : String) :
    (startsWith p n = true ∧ sliceFrom p n = k) ↔ n = p ++ k := by
  constructor
  · rintro ⟨h1, h2⟩
    unfold startsWith at h1
    rw [List.isPrefixOf_iff_prefix] at h1
    obtain ⟨t, ht⟩ := h1
    unfold sliceFrom at h2
    rw [← ht, List.drop_left] at h2
    apply String.ext
    rw [String.data_append, ← ht, ← h2]
  · rintro rfl
    constructor
    · unfold startsWith
      rw [List.isPrefixOf_iff_prefix, String.data_append]
      exact List.prefix_append _ _
    · unfold sliceFrom
      rw [String.data_append, List.drop_left]

theorem seedOptions_of_not_key (l : List (String × Val)) (o : Options) (k : String)
    (h : ∀ v, (k, v) ∉ l) : optGet (seedOptions l o) k = optGet o k := by
  induction l generalizing o with
  | nil => rfl
  | cons p rest ih =>
    obtain ⟨k0, v0⟩ := p
    have h0 : k0 ≠ k := fun e => h v0 (by rw [e]; exact List.mem_cons_self _ _)
    unfold seedOptions
    rw [ih _ (fun v hv => h v (List.mem_cons_of_mem _ hv)), optGet_optSet_ne _ _ _ _ h0]

theorem seedOptions_of_key (l : List (String × Val)) (o : Options) (k : String) (v : Val)
    (hn : (l.map Prod.fst).Nodup) (h : (k, v) ∈ l) : optGet (seedOptions l o) k = v := by
  induction l generalizing o with
  | nil => cases h
  | cons p rest ih =>
    obtain ⟨k0, v0⟩ := p
    rw [List.map_cons, List.nodup_cons] at hn
    unfold seedOptions
    rcases List.mem_cons.mp h with e | e
    · cases e
      rw [seedOptions_of_not_key rest _ k
        (fun v1 hv => hn.1 (List.mem_map.mpr ⟨(k, v1), hv, rfl⟩)), optGet_optSet_same]
    · exact ih _ hn.2 e

theorem readOptAttrs_of_absent (w : World) (l : List (String × String)) (o : Options)
    (k : String) (h : ∀ val, ("muuri-opt-" ++ k, val) ∉ l) :
    optGet (readOptAttrs w l o) k = optGet o k := by
  induction l generalizing o with
  | nil => rfl
  | cons p rest ih =>
    obtain ⟨name, val⟩ := p
    have hr : ∀ val, ("muuri-opt-" ++ k, val) ∉ rest :=
      fun v hv => h v (List.mem_cons_of_mem _ hv)
    have hne : ¬ (startsWith "muuri-opt-" name = true ∧ sliceFrom "muuri-opt-" name = k) := by
      rw [startsWith_sliceFrom_iff]
      intro e
      exact h val (by rw [← e]; exact List.mem_cons_self _ _)
    simp only [readOptAttrs]
    by_cases h1 : startsWith "muuri-opt-" name = true
    · by_cases h2 : sliceFrom "muuri-opt-" name = ""
      · rw [if_pos h1, if_pos h2]
        exact ih _ hr
      · rw [if_pos h1, if_neg h2, ih _ hr, optGet_optSet_ne _ _ _ _ (fun e => hne ⟨h1, e⟩)]
    · rw [if_neg h1]
      exact ih _ hr

theorem readOptAttrs_of_present (w : World) (l : List (String × String)) (o : Options)
    (k val : String) (hk : k ≠ "") (hn : (l.map Prod.fst).Nodup)
    (h : ("muuri-opt-" ++ k, val) ∈ l) :
    optGet (readOptAttrs w l o) k = optionValue w val := by
  induction l generalizing o with
  | nil => cases h
  | cons p rest ih =>
    obtain ⟨name, val0⟩ := p
    rw [List.map_cons, List.nodup_cons] at hn
    rcases List.mem_cons.mp h with e | e
    · cases e
      obtain ⟨h1, h2⟩ := (startsWith_sliceFrom_iff "muuri-opt-" k ("muuri-opt-" ++ k)).mpr rfl
      simp only [readOptAttrs, h1, h2, hk, if_true, if_false]
      rw [readOptAttrs_of_absent w rest _ k
        (fun v hv => hn.1 (List.mem_map.mpr ⟨("muuri-opt-" ++ k, v), hv, rfl⟩)),
        optGet_optSet_same]
      rfl
    · simp only [readOptAttrs]
      by_cases h1 : startsWith "muuri-opt-" name = true
      · by_cases h2 : sliceFrom "muuri-opt-" name = ""
        · rw [if_pos h1, if_pos h2]
          exact ih _ hn.2 e
        · rw [if_pos h1, if_neg h2]
          exact ih _ hn.2 e
      · rw [if_neg h1]
        exact ih _ hn.2 e

theorem readFnAttrs_of_unresolved (w : World) (l : List (String × String)) (o : Options)
    (k : String) (h : ∀ title, ("muuri-fn-" ++ k, title) ∈ l → w.fnModule title = false) :
    optGet (readFnAttrs w l o) k = optGet o k := by
  induction l generalizing o with
  | nil => rfl
  | cons p rest ih =>
    obtain ⟨name, val⟩ := p
    have hr : ∀ title, ("muuri-fn-" ++ k, title) ∈ rest → w.fnModule title = false :=
      fun t ht => h t (List.mem_cons_of_mem _ ht)
    simp only [readFnAttrs]
    split_ifs with h1 h2
    · exact ih _ hr
    · cases hm : readFnModule w val with
      | none => exact ih _ hr
      | some fn =>
        have hne : sliceFrom "muuri-fn-" name ≠ k := by
          intro e
          have hname := (startsWith_sliceFrom_iff "muuri-fn-" k name).mp ⟨h1, e⟩
          have hf := h val (by rw [← hname]; exact List.mem_cons_self _ _)
          simp [readFnModule, hf] at hm
        simp only []
        rw [ih _ hr, optGet_optSet_ne _ _ _ _ hne]
    · exact ih _ hr

theorem readFnAttrs_of_resolved (w : World) (l : List (String × String)) (o : Options)
    (k title : String) (hk : k ≠ "") (hn : (l.map Prod.fst).Nodup)
    (h : ("muuri-fn-" ++ k, title) ∈ l) (hf : w.fnModule title = true) :
    optGet (readFnAttrs w l o) k = Val.fn title := by
  induction l generalizing o with
  | nil => cases h
  | cons p rest ih =>
    obtain ⟨name, val0⟩ := p
    rw [List.map_cons, List.nodup_cons] at hn
    rcases List.mem_cons.mp h with e | e
    · cases e
      obtain ⟨h1, h2⟩ := (startsWith_sliceFrom_iff "muuri-fn-" k ("muuri-fn-" ++ k)).mpr rfl
      simp only [readFnAttrs, h1, h2, hk, if_true, if_false, readFnModule, hf]
      rw [readFnAttrs_of_unresolved w rest _ k
        (fun t ht => absurd (List.mem_map.mpr ⟨("muuri-fn-" ++ k, t), ht, rfl⟩) hn.1),
        optGet_optSet_same]
    · simp only [readFnAttrs]
      split_ifs
      · exact ih _ hn.2 e
      · cases readFnModule w val0 <;> exact ih _ hn.2 e
      · exact ih _ hn.2 e

/-- The option mapping of a snapshot: the bulk members, overwritten from the attributes
`muuri-opt-*`, overwritten from the attributes `muuri-fn-*`, and then the default of
`layoutDuration`. -/
theorem readSnapshot_options (w : World) (ln : Option Elem) :
    (readSnapshot w ln).options =
      if !(optGet (readFnAttrs w (visibleAttributes w ln)
            (readOptAttrs w (visibleAttributes w ln) (seedOptions (bulkEntries w ln) [])))
            "layoutDuration").isSet then
        optSet (readFnAttrs w (visibleAttributes w ln)
            (readOptAttrs w (visibleAttributes w ln) (seedOptions (bulkEntries w ln) [])))
          "layoutDuration" w.getAnimationDuration
      else readFnAttrs w (visibleAttributes w ln)
            (readOptAttrs w (visibleAttributes w ln) (seedOptions (bulkEntries w ln) [])) := by
  unfold readSnapshot visibleAttributes bulkEntries
  rcases ln with _ | n
  · rcases hh : _getHostDomNode w with _ | h
    · rcases hb : readAttr w none none "muuri-opt-json" with _ | bulk
      · simp [hb, readFnAttrs, readOptAttrs, seedOptions]
      · cases hp : parseJSON w bulk <;> simp [hb, hp, readFnAttrs, readOptAttrs, seedOptions]
    · rcases hb : readAttr w none (some h) "muuri-opt-json" with _ | bulk
      · simp [hb, seedOptions]
      · cases hp : parseJSON w bulk <;> simp [hb, hp, seedOptions]
  · rcases hb : readAttr w (some n) (_getHostDomNode w) "muuri-opt-json" with _ | bulk
    · simp [hb, seedOptions]
    · cases hp : parseJSON w bulk <;> simp [hb, hp, seedOptions]

/-- The snapshot holds for every option the value the three sources give it, after the
default of `layoutDuration`. -/
theorem readSnapshot_optGet (w : World) (ln : Option Elem) (k : String) :
    optGet (readSnapshot w ln).options k
      = defaulted w k (optGet (readFnAttrs w (visibleAttributes w ln)
          (readOptAttrs w (visibleAttributes w ln) (seedOptions (bulkEntries w ln) []))) k) := by
  rw [readSnapshot_options]
  unfold defaulted
  by_cases hk : k = "layoutDuration"
  · subst hk
    cases hs : (optGet (readFnAttrs w (visibleAttributes w ln)
        (readOptAttrs w (visibleAttributes w ln) (seedOptions (bulkEntries w ln) [])))
        "layoutDuration").isSet
    · simp [optGet_optSet_same]
    · simp
  · simp only [hk, false_and, if_false]
    split_ifs
    · exact optGet_optSet_ne _ _ _ _ (fun e => hk e.symm)
    · rfl

end MuuriStoryView
